import Mathlib

/-!
# FastBoard core: shallow embedding and verification

A shallow embedding of the core of the FastBoard collaborative-whiteboard
server (`app/services/connection_manager.py`, `app/api/websocket.py`,
`app/models/schemas.py`, `app/utils/helpers.py`) together with proofs about
the message-validation pipeline, the board-state replication log, the
connection registry with its broadcast fan-out, and the sliding-window rate
limiter.

Modelling conventions:
* Parsed JSON values are modelled by the inductive `Json`; Python dicts are
  association lists preserving insertion order (updates keep the position of
  an existing key, fresh keys are appended), matching CPython semantics.
* Wall-clock times (`time.time()`) are rationals; each top-level operation
  receives the single instant `now` at which it runs.
* WebSocket transport is external I/O: `send_text` outcomes are given by an
  oracle `ok : String → Bool` assigning to each client id whether sends to
  its socket succeed.  Deliveries and failures are recorded in an event
  trace.
* The recursion `broadcast → disconnect → broadcast_user_count → broadcast`
  (failed sends trigger disconnects which broadcast again) is bounded by an
  explicit fuel parameter; one unit of fuel is consumed per `disconnect`
  call, so any fuel of at least one per (transitively) disconnected client
  is sufficient.
-/

set_option autoImplicit false

namespace FastBoard

/-- Parsed JSON values, the result of `json.loads` (`safe_json_loads` in
`app/utils/helpers.py`). Objects are insertion-ordered association lists. -/
inductive Json where
  | null
  | bool (b : Bool)
  | num (q : ℚ)
  | str (s : String)
  | arr (elems : List Json)
  | obj (fields : List (String × Json))

/-- Lookup in an insertion-ordered association list (Python `d[k]` / `d.get(k)`). -/
def alLookup {α : Type} : List (String × α) → String → Option α
  | [], _ => none
  | (k, v) :: rest, key => if k = key then some v else alLookup rest key

/-- Insertion into an insertion-ordered association list (Python `d[k] = v`):
an existing key keeps its position, a fresh key is appended at the end. -/
def alInsert {α : Type} : List (String × α) → String → α → List (String × α)
  | [], key, val => [(key, val)]
  | (k, v) :: rest, key, val =>
    if k = key then (k, val) :: rest else (k, v) :: alInsert rest key val

/-- Deletion from an association list (Python `del d[k]`). -/
def alErase {α : Type} : List (String × α) → String → List (String × α)
  | [], _ => []
  | (k, v) :: rest, key =>
    if k = key then alErase rest key else (k, v) :: alErase rest key

/-- Python `d.get(k)` on a `Json` value that is expected to be an object
(`action.get("type")` in `ConnectionManager.add_to_board_state`). -/
def Json.getField : Json → String → Option Json
  | .obj fields, key => alLookup fields key
  | _, _ => none

/-- The `MessageType` enumeration of `app/models/schemas.py`. -/
inductive MessageType where
  | draw | text | clear | cursor | user_count | board_state | error
deriving DecidableEq, Repr

/-- String value of each `MessageType` member (it is a `str`-valued enum). -/
def MessageType.toStr : MessageType → String
  | .draw => "draw"
  | .text => "text"
  | .clear => "clear"
  | .cursor => "cursor"
  | .user_count => "user_count"
  | .board_state => "board_state"
  | .error => "error"

/-- Pydantic coercion of a raw value into `MessageType`. -/
def MessageType.ofString : String → Option MessageType
  | "draw" => some .draw
  | "text" => some .text
  | "clear" => some .clear
  | "cursor" => some .cursor
  | "user_count" => some .user_count
  | "board_state" => some .board_state
  | "error" => some .error
  | _ => none

/-- The `ToolType` enumeration (`pen` / `eraser`). -/
def isToolType (s : String) : Bool := s = "pen" || s = "eraser"

/-- Hex digit test for the color pattern `#[0-9A-Fa-f]{6}`. -/
def isHexDigitChar (c : Char) : Bool :=
  (('0' ≤ c) && (c ≤ '9')) || (('A' ≤ c) && (c ≤ 'F')) || (('a' ≤ c) && (c ≤ 'f'))

/-- The pydantic pattern `^#[0-9A-Fa-f]{6}$` on color fields. -/
def isHexColor (s : String) : Bool :=
  match s.toList with
  | '#' :: rest => rest.length = 6 && rest.all isHexDigitChar
  | _ => false

/-- A rational is an integer (pydantic lax `int` coercion accepts a float
only when it has no fractional part). -/
def isIntRat (q : ℚ) : Bool := q.den = 1

/-- The configured `settings.max_stroke_points` (`app/core/config.py`). -/
def max_stroke_points : ℕ := 1000

/-- A validated drawing point (`Point` in `app/models/schemas.py`):
coordinates restricted to `[-10000, 10000]`. -/
structure Point where
  x : ℚ
  y : ℚ
deriving DecidableEq, Repr

/-- Validate one element of `DrawPayload.points` against the `Point` model. -/
def parsePoint (j : Json) : Option Point :=
  match j with
  | .obj fields =>
    match alLookup fields "x", alLookup fields "y" with
    | some (.num x), some (.num y) =>
      if -10000 ≤ x ∧ x ≤ 10000 then
        if -10000 ≤ y ∧ y ≤ 10000 then some ⟨x, y⟩ else none
      else none
    | _, _ => none
  | _ => none

/-- A validated `DrawPayload`. -/
structure DrawPayloadV where
  tool : String
  color : String
  size : ℤ
  points : List Point
deriving DecidableEq, Repr

/-- A validated `TextPayload`. -/
structure TextPayloadV where
  content : String
  x : ℚ
  y : ℚ
  font : String
  color : String
deriving DecidableEq, Repr

/-- A validated `CursorPayload`. -/
structure CursorPayloadV where
  x : ℚ
  y : ℚ
deriving DecidableEq, Repr

/-- A validated `UserCountPayload` (`count ≥ 0`). -/
structure UserCountPayloadV where
  count : ℤ
deriving DecidableEq, Repr

/-- A validated `BoardStatePayload` (a list of raw action objects,
defaulting to the empty list when the `actions` key is absent). -/
structure BoardStatePayloadV where
  actions : List Json

/-- A validated `ErrorPayload`. -/
structure ErrorPayloadV where
  message : String
  code : Option String
deriving DecidableEq, Repr

/-- Validate a list of raw points elementwise against the `Point` model,
failing as soon as one element fails. -/
def parsePoints : List Json → Option (List Point)
  | [] => some []
  | j :: rest =>
    match parsePoint j, parsePoints rest with
    | some p, some ps => some (p :: ps)
    | _, _ => none

/-- Validate a payload object against `DrawPayload`: field types first
(including the per-point `Point` validation), then the `min_length=1`
constraint, then the custom `validate_points_limit` check. -/
def tryDrawPayload (fields : List (String × Json)) : Option DrawPayloadV :=
  match alLookup fields "tool", alLookup fields "color",
        alLookup fields "size", alLookup fields "points" with
  | some (.str tool), some (.str color), some (.num size), some (.arr rawPts) =>
    if isToolType tool then
      if isHexColor color then
        if isIntRat size ∧ 1 ≤ size.num ∧ size.num ≤ 100 then
          match parsePoints rawPts with
          | some pts =>
            if 1 ≤ pts.length then
              if pts.length ≤ max_stroke_points then
                some ⟨tool, color, size.num, pts⟩
              else none
            else none
          | none => none
        else none
      else none
    else none
  | _, _, _, _ => none

/-- Validate a payload object against `TextPayload`. -/
def tryTextPayload (fields : List (String × Json)) : Option TextPayloadV :=
  match alLookup fields "content", alLookup fields "x", alLookup fields "y",
        alLookup fields "color" with
  | some (.str content), some (.num x), some (.num y), some (.str color) =>
    if content.length ≤ 1000 then
      if isHexColor color then
        match alLookup fields "font" with
        | none => some ⟨content, x, y, "16px Arial", color⟩
        | some (.str font) => some ⟨content, x, y, font, color⟩
        | some _ => none
      else none
    else none
  | _, _, _, _ => none

/-- Validate a payload object against `CursorPayload`. -/
def tryCursorPayload (fields : List (String × Json)) : Option CursorPayloadV :=
  match alLookup fields "x", alLookup fields "y" with
  | some (.num x), some (.num y) => some ⟨x, y⟩
  | _, _ => none

/-- Validate a payload object against `UserCountPayload`. -/
def tryUserCountPayload (fields : List (String × Json)) : Option UserCountPayloadV :=
  match alLookup fields "count" with
  | some (.num c) => if isIntRat c ∧ 0 ≤ c.num then some ⟨c.num⟩ else none
  | _ => none

/-- Is this `Json` value an object? (`Dict[str, Any]` element check.) -/
def Json.isObj : Json → Bool
  | .obj _ => true
  | _ => false

/-- Validate a payload object against `BoardStatePayload`; every field has a
default, so any object without an ill-typed `actions` key validates. -/
def tryBoardStatePayload (fields : List (String × Json)) : Option BoardStatePayloadV :=
  match alLookup fields "actions" with
  | none => some ⟨[]⟩
  | some (.arr acts) => if acts.all Json.isObj then some ⟨acts⟩ else none
  | some _ => none

/-- Validate a payload object against `ErrorPayload`. -/
def tryErrorPayload (fields : List (String × Json)) : Option ErrorPayloadV :=
  match alLookup fields "message" with
  | some (.str msg) =>
    match alLookup fields "code" with
    | none => some ⟨msg, none⟩
    | some .null => some ⟨msg, none⟩
    | some (.str c) => some ⟨msg, some c⟩
    | some _ => none
  | _ => none

/-- The parsed form of `WebSocketMessage.payload`: the union
`Draw | Text | Cursor | UserCount | BoardState | Error | Dict[str, Any]`.
The final `Dict[str, Any]` member accepts any object, so validation of an
object-shaped payload can never fail. -/
inductive ParsedPayload where
  | draw (p : DrawPayloadV)
  | text (p : TextPayloadV)
  | cursor (p : CursorPayloadV)
  | userCount (p : UserCountPayloadV)
  | boardState (p : BoardStatePayloadV)
  | err (p : ErrorPayloadV)
  | dict (fields : List (String × Json))

/-- Validate a raw payload value against the union type of
`WebSocketMessage.payload`. `none` means a pydantic validation error: that
happens only for non-object payloads, since the union falls back to
`Dict[str, Any]` which accepts every object. -/
def parsePayload (j : Json) : Option ParsedPayload :=
  match j with
  | .obj fields =>
    match tryDrawPayload fields with
    | some p => some (.draw p)
    | none =>
      match tryTextPayload fields with
      | some p => some (.text p)
      | none =>
        match tryCursorPayload fields with
        | some p => some (.cursor p)
        | none =>
          match tryUserCountPayload fields with
          | some p => some (.userCount p)
          | none =>
            match tryBoardStatePayload fields with
            | some p => some (.boardState p)
            | none =>
              match tryErrorPayload fields with
              | some p => some (.err p)
              | none => some (.dict fields)
  | _ => none

/-- A validated `WebSocketMessage`. -/
structure WSMessage where
  type : MessageType
  client_id : String
  payload : Option ParsedPayload

/-- Construct a `WebSocketMessage` from a raw object via pydantic
validation: the `type` field must coerce into `MessageType`, the client id
is read through the alias `clientId` (or, by `populate_by_name`, the field
name `client_id`) and must be a string, and the payload, when present and
non-null, must validate against the payload union. -/
def mkWebSocketMessage (fields : List (String × Json)) : Option WSMessage :=
  match alLookup fields "type" with
  | some (.str ts) =>
    match MessageType.ofString ts with
    | some mt =>
      match (alLookup fields "clientId").orElse (fun _ => alLookup fields "client_id") with
      | some (.str cid) =>
        match alLookup fields "payload" with
        | none => some ⟨mt, cid, none⟩
        | some .null => some ⟨mt, cid, none⟩
        | some pv =>
          match parsePayload pv with
          | some pp => some ⟨mt, cid, some pp⟩
          | none => none
      | _ => none
    | none => none
  | _ => none

/-- The validation failures raised by `_process_incoming_message`
(`app/api/websocket.py`), all surfaced as `ValidationException`. -/
inductive ValidationError where
  | invalidJson
  | notObject
  | missingType
  | missingClientId
  | clientIdMismatch
  | validationFailed
deriving DecidableEq, Repr

/-- `ConnectionManager.add_to_board_state`: a `clear` action empties the
log, a `draw` or `text` action is appended, and any other action is
ignored. -/
def add_to_board_state (board : List Json) (action : Json) : List Json :=
  match action.getField "type" with
  | some (.str "clear") => []
  | some (.str "draw") => board ++ [action]
  | some (.str "text") => board ++ [action]
  | _ => board

/-- The `board_state` property: a defensive copy of the current log (the
copy of a list is the same list value). -/
def boardSnapshot (board : List Json) : List Json := board

/-- `_process_incoming_message` (`app/api/websocket.py`): parse the raw
frame, check the presence of `type` and `clientId`, check that the embedded
client id equals the connection's bound id, validate through
`WebSocketMessage`, and, for `draw`/`text`/`clear` messages, hand the raw
action to `add_to_board_state`.  The input `raw` is the result of
`safe_json_loads`: `none` stands for unparseable text, and a parsed JSON
`null` is indistinguishable from a parse failure (`message_data is None`).
Returns the outcome paired with the board log after the call. -/
def processIncomingMessage (raw : Option Json) (client_id : String)
    (board : List Json) : Except ValidationError WSMessage × List Json :=
  match raw with
  | none => (.error .invalidJson, board)
  | some .null => (.error .invalidJson, board)
  | some (Json.obj fields) =>
    if (alLookup fields "type").isNone then (.error .missingType, board)
    else if (alLookup fields "clientId").isNone then (.error .missingClientId, board)
    else if (match alLookup fields "clientId" with
             | some (.str s) => if s = client_id then false else true
             | _ => true) then
      (.error .clientIdMismatch, board)
    else
      match mkWebSocketMessage fields with
      | none => (.error .validationFailed, board)
      | some m =>
        if m.type = .draw ∨ m.type = .text then
          (.ok m, add_to_board_state board (Json.obj fields))
        else if m.type = .clear then
          (.ok m, add_to_board_state board (Json.obj fields))
        else
          (.ok m, board)
  | some _ => (.error .notObject, board)

/-- The `RateLimiter` of `app/utils/helpers.py`: per-identifier ordered
lists of admission timestamps. -/
structure RateLimiter where
  max_requests : ℕ
  window_seconds : ℚ
  requests : List (String × List ℚ)

/-- The pruning step at the head of `RateLimiter.is_allowed`: keep only the
entries of the identifier's history strictly newer than
`now - window_seconds` (a missing identifier reads as the empty history the
code just created for it). -/
def RateLimiter.pruned (rl : RateLimiter) (id : String) (now : ℚ) : List ℚ :=
  ((alLookup rl.requests id).getD []).filter (fun t => now - rl.window_seconds < t)

/-- `RateLimiter.is_allowed` at instant `now`, continued: admit (appending
`now` to the pruned history) when it is shorter than `max_requests`, reject
(storing only the pruned history) otherwise. -/
def RateLimiter.is_allowed (rl : RateLimiter) (id : String) (now : ℚ) :
    Bool × RateLimiter :=
  if (rl.pruned id now).length < rl.max_requests then
    (true, { rl with requests := alInsert rl.requests id (rl.pruned id now ++ [now]) })
  else
    (false, { rl with requests := alInsert rl.requests id (rl.pruned id now) })

/-- Iterate `is_allowed` for one identifier at a fixed instant. -/
def iterAllowed : ℕ → RateLimiter → String → ℚ → RateLimiter
  | 0, rl, _, _ => rl
  | n + 1, rl, id, now => iterAllowed n (rl.is_allowed id now).2 id now

/-- Per-connection metadata (`ConnectionInfo` in `app/models/schemas.py`). -/
structure ConnInfo where
  client_id : String
  connected_at : ℚ
  last_activity : ℚ
  ip_address : Option String
deriving DecidableEq, Repr

/-- The mutable state of `ConnectionManager`: the active connection map
(client id to an opaque websocket handle, numbered), per-connection
metadata, the board log, and the last-activity map. All maps are
insertion-ordered, as Python dicts are. -/
structure ManagerState where
  active_connections : List (String × ℕ)
  connection_info : List (String × ConnInfo)
  board_state : List Json
  client_activity : List (String × ℚ)

/-- Observable transport events: a successful `send_text` of a serialized
message to a client's socket, or a failed one. -/
inductive Event where
  | sent (client : String) (msg : WSMessage)
  | sendFailed (client : String) (msg : WSMessage)

/-- The message a given event concerns. -/
def Event.msg : Event → WSMessage
  | .sent _ m => m
  | .sendFailed _ m => m

/-- `ConnectionManager._update_client_activity`: stamp the activity map at
`now` and, when the client has metadata, its `last_activity` field. -/
def updateClientActivity (now : ℚ) (cid : String) (st : ManagerState) :
    ManagerState :=
  { st with
    client_activity := alInsert st.client_activity cid now
    connection_info :=
      match alLookup st.connection_info cid with
      | some ci => alInsert st.connection_info cid { ci with last_activity := now }
      | none => st.connection_info }

/-- The truthiness test `if exclude_client and client_id == exclude_client`
guarding the skip in `ConnectionManager.broadcast`: an absent or empty
exclusion id excludes nobody. -/
def excludeMatches : Option String → String → Bool
  | none, _ => false
  | some e, cid => if e = "" then false else if cid = e then true else false

/-- The send loop of `ConnectionManager.broadcast` over a snapshot of the
connection items: skip the excluded client; on success bump the recipient's
activity and the counter; on failure record the client for cleanup.
Returns `(successful_sends, failed_clients, state, events)`. -/
def sendLoop (ok : String → Bool) (now : ℚ) (msg : WSMessage)
    (exclude : Option String) :
    List (String × ℕ) → ManagerState → ℕ × List String × ManagerState × List Event
  | [], st => (0, [], st, [])
  | (cid, _) :: rest, st =>
    if excludeMatches exclude cid then sendLoop ok now msg exclude rest st
    else if ok cid then
      let r := sendLoop ok now msg exclude rest (updateClientActivity now cid st)
      (r.1 + 1, r.2.1, r.2.2.1, .sent cid msg :: r.2.2.2)
    else
      let r := sendLoop ok now msg exclude rest st
      (r.1, cid :: r.2.1, r.2.2.1, .sendFailed cid msg :: r.2.2.2)

/-- The cleanup loop of `ConnectionManager.broadcast`: hand each failed
client to `_handle_connection_error`, i.e. to `disconnect` (here abstracted
as `disc`). -/
def runCleanup (disc : String → ManagerState → ManagerState × List Event) :
    List String → ManagerState → ManagerState × List Event
  | [], st => (st, [])
  | cid :: rest, st =>
    let r1 := disc cid st
    let r2 := runCleanup disc rest r1.1
    (r2.1, r1.2 ++ r2.2)

/-- `ConnectionManager.broadcast`, parameterized by the disconnect routine
used for failed clients: an empty registry short-circuits to zero,
otherwise run the send loop over the current connection items and then
clean up the failed clients.  Returns the number of successful sends. -/
def broadcastWith (disc : String → ManagerState → ManagerState × List Event)
    (ok : String → Bool) (now : ℚ) (msg : WSMessage) (exclude : Option String)
    (st : ManagerState) : ℕ × ManagerState × List Event :=
  if st.active_connections.isEmpty then (0, st, [])
  else
    let r := sendLoop ok now msg exclude st.active_connections st
    let c := runCleanup disc r.2.1 r.2.2.1
    (r.1, c.1, r.2.2.2 ++ c.2)

/-- The `user_count` message built by `broadcast_user_count`: type
`user_count`, client id `server`, payload `count = n` (validated through
the payload union like every constructed `WebSocketMessage`). -/
def mkUserCountMsg (n : ℕ) : WSMessage :=
  ⟨.user_count, "server", parsePayload (.obj [("count", .num n)])⟩

/-- The `board_state` message built by `_send_board_state`: type
`board_state`, client id `server`, payload `actions = board`. -/
def mkBoardStateMsg (board : List Json) : WSMessage :=
  ⟨.board_state, "server", parsePayload (.obj [("actions", .arr board)])⟩

/-- The three unconditional deletions at the head of
`ConnectionManager.disconnect`. -/
def removeClient (cid : String) (st : ManagerState) : ManagerState :=
  { st with
    active_connections := alErase st.active_connections cid
    connection_info := alErase st.connection_info cid
    client_activity := alErase st.client_activity cid }

/-- `ConnectionManager.disconnect`: delete the client from all three maps,
then `broadcast_user_count` — a broadcast (no exclusion) of a `user_count`
message carrying the post-removal connection count.  Failed sends inside
that broadcast recursively disconnect the dead clients; the recursion is
bounded by `fuel` (one unit per `disconnect` call), and exhausted fuel
leaves the state untouched. -/
def disconnectFuel (ok : String → Bool) (now : ℚ) :
    ℕ → String → ManagerState → ManagerState × List Event
  | 0, _, st => (st, [])
  | fuel + 1, cid, st =>
    let st1 := removeClient cid st
    let r := broadcastWith (disconnectFuel ok now fuel) ok now
      (mkUserCountMsg st1.active_connections.length) none st1
    (r.2.1, r.2.2)

/-- `ConnectionManager.broadcast` with failure cleanup performed by
`disconnectFuel` with the given fuel. -/
def broadcastFuel (fuel : ℕ) (ok : String → Bool) (now : ℚ) (msg : WSMessage)
    (exclude : Option String) (st : ManagerState) : ℕ × ManagerState × List Event :=
  broadcastWith (disconnectFuel ok now fuel) ok now msg exclude st

/-- `ConnectionManager.connect` (the websocket `accept` is modelled as
succeeding): register the client in all three maps — an already-live id is
silently overwritten — then, when the board log is nonempty, send the
`board_state` snapshot directly to the new socket, and finally broadcast
the user count.  A failing snapshot send raises `WebSocketException`
(returned flag `false`), skipping the user-count broadcast but leaving the
registration in place. -/
def connectFuel (fuel : ℕ) (ok : String → Bool) (now : ℚ) (cid : String)
    (handle : ℕ) (ip : Option String) (st : ManagerState) :
    ManagerState × List Event × Bool :=
  let st1 : ManagerState :=
    { st with
      active_connections := alInsert st.active_connections cid handle
      connection_info := alInsert st.connection_info cid ⟨cid, now, now, ip⟩
      client_activity := alInsert st.client_activity cid now }
  if st1.board_state.isEmpty then
    let r := broadcastFuel fuel ok now (mkUserCountMsg st1.active_connections.length) none st1
    (r.2.1, r.2.2, true)
  else
    if ok cid then
      let r := broadcastFuel fuel ok now (mkUserCountMsg st1.active_connections.length) none st1
      (r.2.1, .sent cid (mkBoardStateMsg st1.board_state) :: r.2.2, true)
    else
      (st1, [.sendFailed cid (mkBoardStateMsg st1.board_state)], false)

/-! ## Association list lemmas -/

@[simp]
theorem alLookup_alInsert_self {α : Type} (l : List (String × α)) (k : String) (v : α) :
    alLookup (alInsert l k v) k = some v := by
  induction l with
  | nil => simp [alInsert, alLookup]
  | cons p rest ih =>
    by_cases h : p.1 = k <;> simp [alInsert, alLookup, h, ih]

theorem alLookup_alInsert_ne {α : Type} (l : List (String × α)) (k k' : String) (v : α)
    (h : k' ≠ k) : alLookup (alInsert l k v) k' = alLookup l k' := by
  induction l with
  | nil => simp [alInsert, alLookup, Ne.symm h]
  | cons p rest ih =>
    obtain ⟨pk, pv⟩ := p
    by_cases hp : pk = k
    · subst hp
      simp [alInsert, alLookup, Ne.symm h]
    · by_cases hp' : pk = k'
      · subst hp'
        simp only [alInsert, hp, if_false, if_neg hp]
        simp [alLookup]
      · simp [alInsert, alLookup, hp, hp', ih]

theorem alInsert_eq_of_lookup {α : Type} (l : List (String × α)) (k : String) (v : α)
    (h : alLookup l k = some v) : alInsert l k v = l := by
  induction l with
  | nil => simp [alLookup] at h
  | cons p rest ih =>
    by_cases hp : p.1 = k
    · subst hp
      simp [alLookup] at h
      cases p
      simp_all [alInsert]
    · simp [alLookup, hp] at h
      simp [alInsert, hp, ih h]

@[simp]
theorem alLookup_alErase_self {α : Type} (l : List (String × α)) (k : String) :
    alLookup (alErase l k) k = none := by
  induction l with
  | nil => simp [alErase, alLookup]
  | cons p rest ih =>
    by_cases hp : p.1 = k <;> simp [alErase, alLookup, hp, ih]

theorem alLookup_alErase_ne {α : Type} (l : List (String × α)) (k k' : String)
    (h : k' ≠ k) : alLookup (alErase l k) k' = alLookup l k' := by
  induction l with
  | nil => simp [alErase]
  | cons p rest ih =>
    obtain ⟨pk, pv⟩ := p
    by_cases hp : pk = k
    · subst hp
      simp [alErase, alLookup, Ne.symm h, ih]
    · by_cases hp' : pk = k'
      · subst hp'
        simp only [alErase, hp, if_neg hp]
        simp [alLookup]
      · simp [alErase, alLookup, hp, hp', ih]

theorem alErase_eq_of_lookup_none {α : Type} (l : List (String × α)) (k : String)
    (h : alLookup l k = none) : alErase l k = l := by
  induction l with
  | nil => simp [alErase]
  | cons p rest ih =>
    by_cases hp : p.1 = k
    · simp [alLookup, hp] at h
    · simp [alLookup, hp] at h
      simp [alErase, hp, ih h]

theorem alInsert_keys_of_lookup {α : Type} (l : List (String × α)) (k : String)
    (v w : α) (h : alLookup l k = some w) :
    (alInsert l k v).map Prod.fst = l.map Prod.fst := by
  induction l with
  | nil => simp [alLookup] at h
  | cons p rest ih =>
    by_cases hp : p.1 = k
    · subst hp
      simp [alInsert]
    · simp [alLookup, hp] at h
      simp [alInsert, hp, ih h]

/-! ## C6: applying messages to the board log -/

/-- C6: applying a `clear` action empties the board log (so a snapshot
taken immediately afterwards is the empty sequence), applying a `draw` or
`text` action appends exactly that action at the end, and applying an
action of any other message kind (`cursor`, `user_count`, `board_state`,
`error`) leaves the log unchanged. -/
theorem add_to_board_state_cases (board : List Json) (a : Json) :
    (a.getField "type" = some (.str "clear") →
      boardSnapshot (add_to_board_state board a) = []) ∧
    ((a.getField "type" = some (.str "draw") ∨ a.getField "type" = some (.str "text")) →
      add_to_board_state board a = board ++ [a]) ∧
    (∀ t : MessageType,
      (t = .cursor ∨ t = .user_count ∨ t = .board_state ∨ t = .error) →
      a.getField "type" = some (.str t.toStr) → add_to_board_state board a = board) := by
  refine ⟨fun h => ?_, fun h => ?_, fun t ht h => ?_⟩
  · simp [add_to_board_state, boardSnapshot, h]
  · rcases h with h | h <;> simp [add_to_board_state, h]
  · rcases ht with ht | ht | ht | ht <;> subst ht <;>
      simp [add_to_board_state, MessageType.toStr, h]

/-- Witness for C6 with concrete actions: a clear on a one-action log, a
draw appended to an empty log, and a cursor action left ignored. -/
theorem add_to_board_state_cases_witness :
    boardSnapshot (add_to_board_state [Json.obj [("type", Json.str "draw")]]
        (Json.obj [("type", Json.str "clear")])) = [] ∧
    add_to_board_state [] (Json.obj [("type", Json.str "draw")]) =
      [Json.obj [("type", Json.str "draw")]] ∧
    add_to_board_state [] (Json.obj [("type", Json.str "cursor")]) = [] :=
  ⟨(add_to_board_state_cases _ _).1 rfl,
   (add_to_board_state_cases _ _).2.1 (Or.inl rfl),
   (add_to_board_state_cases _ _).2.2 .cursor (Or.inl rfl) rfl⟩

/-! ## C5: the sliding-window rate limiter -/

theorem is_allowed_params (rl : RateLimiter) (id : String) (now : ℚ) :
    (rl.is_allowed id now).2.max_requests = rl.max_requests ∧
    (rl.is_allowed id now).2.window_seconds = rl.window_seconds := by
  unfold RateLimiter.is_allowed
  split <;> exact ⟨rfl, rfl⟩

theorem iterAllowed_succ (n : ℕ) (rl : RateLimiter) (id : String) (now : ℚ) :
    iterAllowed (n + 1) rl id now = ((iterAllowed n rl id now).is_allowed id now).2 := by
  induction n generalizing rl with
  | zero => simp [iterAllowed]
  | succ n ih =>
    show iterAllowed (n + 1) (rl.is_allowed id now).2 id now = _
    rw [ih]
    rfl

theorem iterAllowed_params (k : ℕ) (rl : RateLimiter) (id : String) (now : ℚ) :
    (iterAllowed k rl id now).max_requests = rl.max_requests ∧
    (iterAllowed k rl id now).window_seconds = rl.window_seconds := by
  induction k with
  | zero => exact ⟨rfl, rfl⟩
  | succ k ih =>
    rw [iterAllowed_succ]
    refine ⟨?_, ?_⟩
    · rw [(is_allowed_params _ id now).1, ih.1]
    · rw [(is_allowed_params _ id now).2, ih.2]

theorem filter_window_replicate (k : ℕ) (now w : ℚ) (hw : 0 < w) :
    (List.replicate k now).filter (fun t => decide (now - w < t)) = List.replicate k now := by
  refine List.filter_eq_self.mpr ?_
  intro a ha
  rw [List.eq_of_mem_replicate ha]
  simpa using sub_lt_self now hw

theorem pruned_replicate (rl : RateLimiter) (id : String) (now : ℚ) (k : ℕ)
    (hw : 0 < rl.window_seconds)
    (hist : (alLookup rl.requests id).getD [] = List.replicate k now) :
    rl.pruned id now = List.replicate k now := by
  unfold RateLimiter.pruned
  rw [hist]
  exact filter_window_replicate k now _ hw

theorem iterAllowed_history (rl : RateLimiter) (id : String) (now : ℚ)
    (h0 : alLookup rl.requests id = none) (hw : 0 < rl.window_seconds) :
    ∀ k, k ≤ rl.max_requests →
      alLookup (iterAllowed k rl id now).requests id = some (List.replicate k now) ∨
        (k = 0 ∧ alLookup (iterAllowed k rl id now).requests id = none) := by
  intro k
  induction k with
  | zero => exact fun _ => Or.inr ⟨rfl, h0⟩
  | succ k ih =>
    intro hk
    left
    have hk' : k ≤ rl.max_requests := Nat.le_of_succ_le hk
    have hist : ((alLookup (iterAllowed k rl id now).requests id).getD []) =
        List.replicate k now := by
      rcases ih hk' with h | ⟨hk0, h⟩
      · simp [h]
      · subst hk0; simp [h]
    have hwk : 0 < (iterAllowed k rl id now).window_seconds := by
      rw [(iterAllowed_params k rl id now).2]; exact hw
    have hpr := pruned_replicate (iterAllowed k rl id now) id now k hwk hist
    rw [iterAllowed_succ]
    unfold RateLimiter.is_allowed
    rw [hpr, (iterAllowed_params k rl id now).1]
    have hlt : (List.replicate k now).length < rl.max_requests := by
      simpa using Nat.lt_of_succ_le hk
    simp only [hlt, if_pos]
    rw [← List.replicate_succ']
    simp

/-- C5: at a fixed instant, starting from an identifier with no recorded
history, the first `max_requests` admission checks return `true`, the
following check returns `false`, any rejected check rewrites the ledger to
exactly the pruned history (appending nothing), and once `window_seconds`
have elapsed the previously blocked identifier is admitted again. -/
theorem rate_limiter_sliding_window (rl : RateLimiter) (id : String) (now : ℚ)
    (h0 : alLookup rl.requests id = none) (hw : 0 < rl.window_seconds)
    (hm : 0 < rl.max_requests) :
    (∀ k, k < rl.max_requests → ((iterAllowed k rl id now).is_allowed id now).1 = true) ∧
    ((iterAllowed rl.max_requests rl id now).is_allowed id now).1 = false ∧
    (∀ rl2 : RateLimiter, (rl2.is_allowed id now).1 = false →
      (rl2.is_allowed id now).2.requests =
        alInsert rl2.requests id (rl2.pruned id now)) ∧
    ((iterAllowed rl.max_requests rl id now).is_allowed id (now + rl.window_seconds)).1 = true := by
  have hist : ∀ k, k ≤ rl.max_requests →
      ((alLookup (iterAllowed k rl id now).requests id).getD []) = List.replicate k now := by
    intro k hk
    rcases iterAllowed_history rl id now h0 hw k hk with h | ⟨hk0, h⟩
    · simp [h]
    · subst hk0; simp [h]
  have hwk : ∀ k, 0 < (iterAllowed k rl id now).window_seconds := by
    intro k
    rw [(iterAllowed_params k rl id now).2]; exact hw
  refine ⟨?_, ?_, ?_, ?_⟩
  · intro k hk
    have hpr := pruned_replicate (iterAllowed k rl id now) id now k (hwk k)
      (hist k (Nat.le_of_lt hk))
    unfold RateLimiter.is_allowed
    rw [hpr, (iterAllowed_params k rl id now).1]
    have hlt : (List.replicate k now).length < rl.max_requests := by simpa using hk
    simp [hlt, hk]
  · have hpr := pruned_replicate (iterAllowed rl.max_requests rl id now) id now
      rl.max_requests (hwk _) (hist rl.max_requests (Nat.le_refl _))
    unfold RateLimiter.is_allowed
    rw [hpr, (iterAllowed_params _ rl id now).1]
    simp
  · intro rl2 hrej
    unfold RateLimiter.is_allowed at hrej ⊢
    split at hrej
    · simp at hrej
    · next hge => rw [if_neg hge]
  · have hdrop : (iterAllowed rl.max_requests rl id now).pruned id
        (now + rl.window_seconds) = [] := by
      unfold RateLimiter.pruned
      rw [hist rl.max_requests (Nat.le_refl _), (iterAllowed_params _ rl id now).2]
      refine List.filter_eq_nil_iff.mpr ?_
      intro a ha
      rw [List.eq_of_mem_replicate ha]
      simp
    unfold RateLimiter.is_allowed
    rw [hdrop, (iterAllowed_params _ rl id now).1]
    simp [hm]

/-- Witness for C5 at `max_requests = 2`, `window_seconds = 60`, a fresh
identifier, instant `0`: both admission bounds are exercised. -/
theorem rate_limiter_sliding_window_witness :
    ((iterAllowed 1 ⟨2, 60, []⟩ "203.0.113.7" 0).is_allowed "203.0.113.7" 0).1 = true ∧
    ((iterAllowed 2 ⟨2, 60, []⟩ "203.0.113.7" 0).is_allowed "203.0.113.7" 0).1 = false ∧
    ((iterAllowed 2 ⟨2, 60, []⟩ "203.0.113.7" 0).is_allowed "203.0.113.7" 60).1 = true :=
  have h := rate_limiter_sliding_window ⟨2, 60, []⟩ "203.0.113.7" 0 rfl
    (by norm_num) (by norm_num)
  ⟨h.1 1 (by norm_num), h.2.1, by simpa using h.2.2.2⟩

/-! ## Broadcast fan-out: structural lemmas -/

/-- The client an event concerns. -/
def Event.client : Event → String
  | .sent c _ => c
  | .sendFailed c _ => c

theorem updateClientActivity_active (now : ℚ) (cid : String) (st : ManagerState) :
    (updateClientActivity now cid st).active_connections = st.active_connections := rfl

theorem updateClientActivity_board (now : ℚ) (cid : String) (st : ManagerState) :
    (updateClientActivity now cid st).board_state = st.board_state := rfl

theorem sendLoop_count (ok : String → Bool) (now : ℚ) (msg : WSMessage)
    (exclude : Option String) :
    ∀ (conns : List (String × ℕ)) (st : ManagerState),
      (sendLoop ok now msg exclude conns st).1 =
        (conns.filter (fun p => !excludeMatches exclude p.1 && ok p.1)).length := by
  intro conns
  induction conns with
  | nil => intro st; rfl
  | cons p rest ih =>
    intro st
    obtain ⟨cid, hnd⟩ := p
    by_cases he : excludeMatches exclude cid = true
    · simp [sendLoop, he, ih]
    · have he' : excludeMatches exclude cid = false := by simpa using he
      by_cases hk : ok cid = true
      · simp [sendLoop, he', hk, ih]
      · have hk' : ok cid = false := by simpa using hk
        simp [sendLoop, he', hk', ih]

theorem sendLoop_failed (ok : String → Bool) (now : ℚ) (msg : WSMessage)
    (exclude : Option String) :
    ∀ (conns : List (String × ℕ)) (st : ManagerState),
      (sendLoop ok now msg exclude conns st).2.1 =
        (conns.filter (fun p => !excludeMatches exclude p.1 && !ok p.1)).map Prod.fst := by
  intro conns
  induction conns with
  | nil => intro st; rfl
  | cons p rest ih =>
    intro st
    obtain ⟨cid, hnd⟩ := p
    by_cases he : excludeMatches exclude cid = true
    · simp [sendLoop, he, ih]
    · have he' : excludeMatches exclude cid = false := by simpa using he
      by_cases hk : ok cid = true
      · simp [sendLoop, he', hk, ih]
      · have hk' : ok cid = false := by simpa using hk
        simp [sendLoop, he', hk', ih]

theorem sendLoop_active (ok : String → Bool) (now : ℚ) (msg : WSMessage)
    (exclude : Option String) :
    ∀ (conns : List (String × ℕ)) (st : ManagerState),
      (sendLoop ok now msg exclude conns st).2.2.1.active_connections =
        st.active_connections := by
  intro conns
  induction conns with
  | nil => intro st; rfl
  | cons p rest ih =>
    intro st
    obtain ⟨cid, hnd⟩ := p
    by_cases he : excludeMatches exclude cid = true
    · simp [sendLoop, he, ih]
    · have he' : excludeMatches exclude cid = false := by simpa using he
      by_cases hk : ok cid = true
      · simp [sendLoop, he', hk, ih, updateClientActivity_active]
      · have hk' : ok cid = false := by simpa using hk
        simp [sendLoop, he', hk', ih]

theorem sendLoop_board (ok : String → Bool) (now : ℚ) (msg : WSMessage)
    (exclude : Option String) :
    ∀ (conns : List (String × ℕ)) (st : ManagerState),
      (sendLoop ok now msg exclude conns st).2.2.1.board_state = st.board_state := by
  intro conns
  induction conns with
  | nil => intro st; rfl
  | cons p rest ih =>
    intro st
    obtain ⟨cid, hnd⟩ := p
    by_cases he : excludeMatches exclude cid = true
    · simp [sendLoop, he, ih]
    · have he' : excludeMatches exclude cid = false := by simpa using he
      by_cases hk : ok cid = true
      · simp [sendLoop, he', hk, ih, updateClientActivity_board]
      · have hk' : ok cid = false := by simpa using hk
        simp [sendLoop, he', hk', ih]

theorem sendLoop_sent_mem (ok : String → Bool) (now : ℚ) (msg : WSMessage)
    (exclude : Option String) :
    ∀ (conns : List (String × ℕ)) (st : ManagerState) (cid : String) (hnd : ℕ),
      (cid, hnd) ∈ conns → excludeMatches exclude cid = false → ok cid = true →
      Event.sent cid msg ∈ (sendLoop ok now msg exclude conns st).2.2.2 := by
  intro conns
  induction conns with
  | nil => intro st cid hnd hm; simp at hm
  | cons p rest ih =>
    intro st cid hnd hm hex hok
    obtain ⟨pk, ph⟩ := p
    rcases List.mem_cons.mp hm with heq | hm2
    · cases heq
      simp [sendLoop, hex, hok]
    · by_cases he : excludeMatches exclude pk = true
      · simpa [sendLoop, he] using ih _ cid hnd hm2 hex hok
      · have he' : excludeMatches exclude pk = false := by simpa using he
        by_cases hk : ok pk = true
        · simp only [sendLoop, he', hk, Bool.false_eq_true, if_false, if_true]
          exact List.mem_cons_of_mem _ (ih _ cid hnd hm2 hex hok)
        · have hk' : ok pk = false := by simpa using hk
          simp only [sendLoop, he', hk', Bool.false_eq_true, if_false]
          exact List.mem_cons_of_mem _ (ih _ cid hnd hm2 hex hok)

theorem sendLoop_events_msg (ok : String → Bool) (now : ℚ) (msg : WSMessage)
    (exclude : Option String) :
    ∀ (conns : List (String × ℕ)) (st : ManagerState) (e : Event),
      e ∈ (sendLoop ok now msg exclude conns st).2.2.2 → e.msg = msg := by
  intro conns
  induction conns with
  | nil => intro st e he; simp [sendLoop] at he
  | cons p rest ih =>
    intro st e he
    obtain ⟨pk, ph⟩ := p
    by_cases hex : excludeMatches exclude pk = true
    · rw [show sendLoop ok now msg exclude ((pk, ph) :: rest) st =
        sendLoop ok now msg exclude rest st from by simp [sendLoop, hex]] at he
      exact ih _ e he
    · have he' : excludeMatches exclude pk = false := by simpa using hex
      by_cases hk : ok pk = true
      · simp only [sendLoop, he', hk, Bool.false_eq_true, if_false, if_true] at he
        rcases List.mem_cons.mp he with rfl | hm
        · rfl
        · exact ih _ e hm
      · have hk' : ok pk = false := by simpa using hk
        simp only [sendLoop, he', hk', Bool.false_eq_true, if_false] at he
        rcases List.mem_cons.mp he with rfl | hm
        · rfl
        · exact ih _ e hm

theorem sendLoop_events_client (ok : String → Bool) (now : ℚ) (msg : WSMessage)
    (exclude : Option String) :
    ∀ (conns : List (String × ℕ)) (st : ManagerState) (e : Event),
      e ∈ (sendLoop ok now msg exclude conns st).2.2.2 →
      excludeMatches exclude (Event.client e) = false := by
  intro conns
  induction conns with
  | nil => intro st e he; simp [sendLoop] at he
  | cons p rest ih =>
    intro st e he
    obtain ⟨pk, ph⟩ := p
    by_cases hex : excludeMatches exclude pk = true
    · rw [show sendLoop ok now msg exclude ((pk, ph) :: rest) st =
        sendLoop ok now msg exclude rest st from by simp [sendLoop, hex]] at he
      exact ih _ e he
    · have he' : excludeMatches exclude pk = false := by simpa using hex
      by_cases hk : ok pk = true
      · simp only [sendLoop, he', hk, Bool.false_eq_true, if_false, if_true] at he
        rcases List.mem_cons.mp he with rfl | hm
        · simpa [Event.client] using he'
        · exact ih _ e hm
      · have hk' : ok pk = false := by simpa using hk
        simp only [sendLoop, he', hk', Bool.false_eq_true, if_false] at he
        rcases List.mem_cons.mp he with rfl | hm
        · simpa [Event.client] using he'
        · exact ih _ e hm

theorem runCleanup_inv {disc : String → ManagerState → ManagerState × List Event}
    (P : ManagerState → Prop) :
    ∀ (failed : List String),
      (∀ cid st, cid ∈ failed → P st → P (disc cid st).1) →
      ∀ st, P st → P (runCleanup disc failed st).1 := by
  intro failed
  induction failed with
  | nil => intro _ st h; exact h
  | cons c rest ih =>
    intro hd st h
    exact ih (fun cid st' hm hp => hd cid st' (List.mem_cons_of_mem _ hm) hp)
      (disc c st).1 (hd c st (List.mem_cons_self _ _) h)

theorem runCleanup_events {disc : String → ManagerState → ManagerState × List Event}
    (Q : Event → Prop) :
    ∀ (failed : List String),
      (∀ cid st e, cid ∈ failed → e ∈ (disc cid st).2 → Q e) →
      ∀ st e, e ∈ (runCleanup disc failed st).2 → Q e := by
  intro failed
  induction failed with
  | nil => intro _ st e he; simp [runCleanup] at he
  | cons c rest ih =>
    intro hd st e he
    simp only [runCleanup] at he
    rcases List.mem_append.mp he with h1 | h2
    · exact hd c st e (List.mem_cons_self _ _) h1
    · exact ih (fun cid st' e' hm he' => hd cid st' e' (List.mem_cons_of_mem _ hm) he')
        _ e h2

theorem broadcastWith_lookup_none
    {disc : String → ManagerState → ManagerState × List Event}
    (hd : ∀ cid st c, alLookup st.active_connections c = none →
      alLookup ((disc cid st).1).active_connections c = none)
    (ok : String → Bool) (now : ℚ) (msg : WSMessage) (exclude : Option String)
    (st : ManagerState) (c : String)
    (h : alLookup st.active_connections c = none) :
    alLookup ((broadcastWith disc ok now msg exclude st).2.1).active_connections c =
      none := by
  by_cases hE : st.active_connections.isEmpty = true
  · simpa [broadcastWith, hE] using h
  · have hE' : st.active_connections.isEmpty = false := by simpa using hE
    simp only [broadcastWith, hE', Bool.false_eq_true, if_false]
    refine runCleanup_inv (fun s => alLookup s.active_connections c = none) _
      (fun cid st' _ hp => hd cid st' c hp) _ ?_
    show alLookup (sendLoop ok now msg exclude
      st.active_connections st).2.2.1.active_connections c = none
    rw [sendLoop_active]
    exact h

theorem broadcastWith_events
    {disc : String → ManagerState → ManagerState × List Event}
    (Q : Event → Prop) (ok : String → Bool) (now : ℚ) (msg : WSMessage)
    (exclude : Option String) (st : ManagerState)
    (htop : ∀ e, e ∈ (sendLoop ok now msg exclude st.active_connections st).2.2.2 → Q e)
    (hd : ∀ cid st' e, e ∈ (disc cid st').2 → Q e) :
    ∀ e, e ∈ (broadcastWith disc ok now msg exclude st).2.2 → Q e := by
  intro e he
  by_cases hE : st.active_connections.isEmpty = true
  · simp [broadcastWith, hE] at he
  · have hE' : st.active_connections.isEmpty = false := by simpa using hE
    simp only [broadcastWith, hE', Bool.false_eq_true, if_false] at he
    rcases List.mem_append.mp he with h1 | h2
    · exact htop e h1
    · exact runCleanup_events Q _ (fun cid st' e' _ he' => hd cid st' e' he') _ e h2

theorem removeClient_lookup_none (cid c : String) (st : ManagerState)
    (h : alLookup st.active_connections c = none) :
    alLookup (removeClient cid st).active_connections c = none := by
  unfold removeClient
  by_cases hc : c = cid
  · subst hc; simp
  · simpa [alLookup_alErase_ne _ cid c hc] using h

theorem disconnectFuel_lookup_none (ok : String → Bool) (now : ℚ) :
    ∀ (fuel : ℕ) (cid : String) (st : ManagerState) (c : String),
      alLookup st.active_connections c = none →
      alLookup ((disconnectFuel ok now fuel cid st).1).active_connections c = none := by
  intro fuel
  induction fuel with
  | zero => intro cid st c h; exact h
  | succ fuel ih =>
    intro cid st c h
    exact broadcastWith_lookup_none (fun cid' st' c' h' => ih cid' st' c' h')
      ok now _ none _ c (removeClient_lookup_none cid c st h)

theorem disconnectFuel_removes (ok : String → Bool) (now : ℚ) (fuel : ℕ)
    (cid : String) (st : ManagerState) :
    alLookup ((disconnectFuel ok now (fuel + 1) cid st).1).active_connections cid =
      none := by
  have h1 : alLookup (removeClient cid st).active_connections cid = none := by
    unfold removeClient; simp
  exact broadcastWith_lookup_none
    (fun cid' st' c' h' => disconnectFuel_lookup_none ok now fuel cid' st' c' h')
    ok now _ none _ cid h1

theorem mkUserCountMsg_client_id (n : ℕ) : (mkUserCountMsg n).client_id = "server" := rfl

theorem mkUserCountMsg_type (n : ℕ) : (mkUserCountMsg n).type = MessageType.user_count := rfl

theorem disconnectFuel_events_server (ok : String → Bool) (now : ℚ) :
    ∀ (fuel : ℕ) (cid : String) (st : ManagerState) (e : Event),
      e ∈ (disconnectFuel ok now fuel cid st).2 →
      e.msg.client_id = "server" ∧ e.msg.type = MessageType.user_count := by
  intro fuel
  induction fuel with
  | zero => intro cid st e he; simp [disconnectFuel] at he
  | succ fuel ih =>
    intro cid st e he
    refine broadcastWith_events
      (fun e => e.msg.client_id = "server" ∧ e.msg.type = MessageType.user_count)
      ok now _ none (removeClient cid st) ?_ (fun cid' st' e' he' => ih cid' st' e' he')
      e he
    intro e' he'
    have hm := sendLoop_events_msg ok now _ none _ _ e' he'
    rw [hm]
    exact ⟨rfl, rfl⟩

theorem runCleanup_removes (ok : String → Bool) (now : ℚ) (fuel : ℕ) :
    ∀ (failed : List String) (st : ManagerState) (cid : String), cid ∈ failed →
      alLookup ((runCleanup (disconnectFuel ok now (fuel + 1)) failed
        st).1).active_connections cid = none := by
  intro failed
  induction failed with
  | nil => intro st cid hm; simp at hm
  | cons f rest ih =>
    intro st cid hm
    rcases List.mem_cons.mp hm with rfl | hm2
    · refine runCleanup_inv (fun s => alLookup s.active_connections cid = none) rest
        (fun cid' st' _ hp =>
          disconnectFuel_lookup_none ok now (fuel + 1) cid' st' cid hp) _
        (disconnectFuel_removes ok now fuel cid st)
    · exact ih _ cid hm2

/-! ## Concrete fixtures for witnesses and counterexamples -/

/-- A sample ephemeral message used in concrete scenarios. -/
def sampleMsg : WSMessage := ⟨.cursor, "alice", none⟩

/-- Send oracle where only the socket of client `b` is dead. -/
def okExceptB : String → Bool := fun c => if c = "b" then false else true

/-- A registry with three live clients `a`, `b`, `c`. -/
def stThree : ManagerState :=
  ⟨[("a", 1), ("b", 2), ("c", 3)],
   [("a", ⟨"a", 0, 0, none⟩), ("b", ⟨"b", 0, 0, none⟩), ("c", ⟨"c", 0, 0, none⟩)],
   [], [("a", 0), ("b", 0), ("c", 0)]⟩

/-- A registry with a single live client `a`. -/
def stOne : ManagerState :=
  ⟨[("a", 1)], [("a", ⟨"a", 0, 0, none⟩)], [], [("a", 0)]⟩

/-- A registry holding one session whose client id is the empty string. -/
def stEmptyId : ManagerState :=
  ⟨[("", 7)], [("", ⟨"", 0, 0, none⟩)], [], [("", 0)]⟩

/-! ## C7: broadcast delivery count and failure handling -/

/-- C7: `broadcast` returns exactly the number of sessions whose send
succeeded; a send failure for one session does not abort delivery to the
remaining sessions (every non-excluded client with a working socket gets a
delivery event); and every non-excluded session whose send failed is handed
to deregistration — it is absent from the registry when the call returns,
and is never retried for this message. -/
theorem broadcast_count_failures (fuel : ℕ) (ok : String → Bool) (now : ℚ)
    (msg : WSMessage) (exclude : Option String) (st : ManagerState) :
    (broadcastFuel (fuel + 1) ok now msg exclude st).1 =
      (st.active_connections.filter
        (fun p => !excludeMatches exclude p.1 && ok p.1)).length ∧
    (∀ cid hnd, (cid, hnd) ∈ st.active_connections →
      excludeMatches exclude cid = false → ok cid = true →
      Event.sent cid msg ∈ (broadcastFuel (fuel + 1) ok now msg exclude st).2.2) ∧
    (∀ cid hnd, (cid, hnd) ∈ st.active_connections →
      excludeMatches exclude cid = false → ok cid = false →
      alLookup
        ((broadcastFuel (fuel + 1) ok now msg exclude st).2.1).active_connections
        cid = none) := by
  by_cases hE : st.active_connections.isEmpty = true
  · have hnil : st.active_connections = [] := List.isEmpty_iff.mp hE
    refine ⟨?_, ?_, ?_⟩
    · simp [broadcastFuel, broadcastWith, hE, hnil]
    · intro cid hnd hm
      rw [hnil] at hm
      simp at hm
    · intro cid hnd hm
      rw [hnil] at hm
      simp at hm
  · have hE' : st.active_connections.isEmpty = false := by simpa using hE
    refine ⟨?_, ?_, ?_⟩
    · show (broadcastWith _ ok now msg exclude st).1 = _
      simp only [broadcastWith, hE', Bool.false_eq_true, if_false]
      exact sendLoop_count ok now msg exclude _ st
    · intro cid hnd hm hex hok
      show Event.sent cid msg ∈ (broadcastWith _ ok now msg exclude st).2.2
      simp only [broadcastWith, hE', Bool.false_eq_true, if_false]
      exact List.mem_append_left _
        (sendLoop_sent_mem ok now msg exclude _ st cid hnd hm hex hok)
    · intro cid hnd hm hex hok
      show alLookup ((broadcastWith _ ok now msg exclude st).2.1).active_connections
        cid = none
      simp only [broadcastWith, hE', Bool.false_eq_true, if_false]
      refine runCleanup_removes ok now fuel _ _ cid ?_
      rw [sendLoop_failed]
      refine List.mem_map.mpr ⟨(cid, hnd), List.mem_filter.mpr ⟨hm, ?_⟩, rfl⟩
      simp [hex, hok]

/-- Witness for C7: three clients, the socket of `b` dead, no exclusion:
two successful deliveries are counted, `c` still receives the message
after the failure on `b`, and `b` has been deregistered on return. -/
theorem broadcast_count_failures_witness :
    (broadcastFuel 1 okExceptB 0 sampleMsg none stThree).1 = 2 ∧
    Event.sent "c" sampleMsg ∈
      (broadcastFuel 1 okExceptB 0 sampleMsg none stThree).2.2 ∧
    alLookup
      ((broadcastFuel 1 okExceptB 0 sampleMsg none stThree).2.1).active_connections
      "b" = none :=
  have h := broadcast_count_failures 0 okExceptB 0 sampleMsg none stThree
  ⟨by rw [h.1]; rfl,
   h.2.1 "c" 3 (by decide) rfl rfl,
   h.2.2 "b" 2 (by decide) rfl rfl⟩

/-! ## C8: exclusion from broadcast -/

/-- C8 counterexample: the exclusion guard is a Python truthiness test
(`if exclude_client and client_id == exclude_client`), so excluding the
empty-string client id excludes nobody: a live session whose id is the
empty string receives the message and is counted as a successful
delivery. -/
theorem broadcast_exclude_empty_cex :
    (broadcastFuel 2 (fun _ => true) 0 sampleMsg (some "") stEmptyId).1 = 1 ∧
    (broadcastFuel 2 (fun _ => true) 0 sampleMsg (some "") stEmptyId).2.2 =
      [Event.sent "" sampleMsg] := ⟨rfl, rfl⟩

/-- C8 amended: for every non-empty excluded client id `c`,
`broadcast(m, exclude=c)` never delivers `m` to `c`: any event addressed to
`c` during the call (including the failure-cleanup cascade, which
broadcasts without exclusion) carries a server-originated `user_count`
notification, never the broadcast message of a non-`user_count` kind. -/
theorem broadcast_exclude_nonempty (fuel : ℕ) (ok : String → Bool) (now : ℚ)
    (msg : WSMessage) (c : String) (st : ManagerState) (hc : c ≠ "")
    (e : Event) (he : e ∈ (broadcastFuel fuel ok now msg (some c) st).2.2)
    (hce : Event.client e = c) :
    e.msg.client_id = "server" ∧ e.msg.type = MessageType.user_count := by
  refine broadcastWith_events
    (fun e => Event.client e = c →
      e.msg.client_id = "server" ∧ e.msg.type = MessageType.user_count)
    ok now msg (some c) st ?_ ?_ e he hce
  · intro e' he' hce'
    have hx := sendLoop_events_client ok now msg (some c) _ st e' he'
    rw [hce'] at hx
    simp [excludeMatches, hc] at hx
  · intro cid' st' e' he' _
    exact disconnectFuel_events_server ok now _ cid' st' e' he'

/-- Witness for C8 amended: excluding `a` while the socket of `b` is dead;
the only event addressed to `a` is the server `user_count` notification
from the cleanup of `b`, and the theorem identifies it as such. -/
theorem broadcast_exclude_nonempty_witness :
    (Event.sent "a" (mkUserCountMsg 2)).msg.client_id = "server" ∧
    (Event.sent "a" (mkUserCountMsg 2)).msg.type = MessageType.user_count :=
  broadcast_exclude_nonempty 2 okExceptB 0 sampleMsg "a" stThree (by decide)
    (Event.sent "a" (mkUserCountMsg 2))
    (by
      have h : (broadcastFuel 2 okExceptB 0 sampleMsg (some "a") stThree).2.2 =
          [Event.sendFailed "b" sampleMsg, Event.sent "c" sampleMsg,
           Event.sent "a" (mkUserCountMsg 2), Event.sent "c" (mkUserCountMsg 2)] := rfl
      rw [h]
      exact List.mem_cons_of_mem _ (List.mem_cons_of_mem _ (List.mem_cons_self _ _)))
    rfl

/-! ## C10: disconnect always broadcasts the user count -/

/-- C10: every `disconnect` — including the deregistration of an id that is
not registered — ends by broadcasting a `user_count` message with client id
`server` and the post-removal connection count; every still-connected
session with a working socket receives it. -/
theorem disconnect_user_count_broadcast (fuel : ℕ) (ok : String → Bool) (now : ℚ)
    (cid : String) (st : ManagerState) :
    (∀ c hnd, (c, hnd) ∈ (removeClient cid st).active_connections → ok c = true →
      Event.sent c (mkUserCountMsg (removeClient cid st).active_connections.length) ∈
        (disconnectFuel ok now (fuel + 1) cid st).2) ∧
    (∀ n : ℕ, (mkUserCountMsg n).client_id = "server" ∧
      (mkUserCountMsg n).type = MessageType.user_count) := by
  constructor
  · intro c hnd hm hok
    by_cases hE : (removeClient cid st).active_connections.isEmpty = true
    · have hnil := List.isEmpty_iff.mp hE
      rw [hnil] at hm
      simp at hm
    · have hE' : (removeClient cid st).active_connections.isEmpty = false := by
        simpa using hE
      show Event.sent c _ ∈ (broadcastWith (disconnectFuel ok now fuel) ok now
        (mkUserCountMsg (removeClient cid st).active_connections.length) none
        (removeClient cid st)).2.2
      simp only [broadcastWith, hE', Bool.false_eq_true, if_false]
      exact List.mem_append_left _
        (sendLoop_sent_mem ok now _ none _ _ c hnd hm rfl hok)
  · intro n
    exact ⟨rfl, rfl⟩

/-- Witness for C10: disconnecting the unknown id `b` from a registry
holding only `a` still broadcasts `user_count` (count 1) to `a`. -/
theorem disconnect_user_count_broadcast_witness :
    Event.sent "a" (mkUserCountMsg 1) ∈
      (disconnectFuel (fun _ => true) 5 1 "b" stOne).2 ∧
    (mkUserCountMsg 1).client_id = "server" :=
  have h := disconnect_user_count_broadcast 0 (fun _ => true) 5 "b" stOne
  ⟨h.1 "a" 1 (by decide) rfl, (h.2 1).1⟩

/-! ## Session preservation: a client with a working socket survives
broadcasts and disconnects of other clients -/

/-- The session data of client `c` is intact: its handle, its metadata
record, and its activity stamp — the latter already at instant `now`, so
that touching it again within the same operation changes nothing. -/
def clientIntact (c : String) (hnd : ℕ) (ci : ConnInfo) (now : ℚ)
    (st : ManagerState) : Prop :=
  alLookup st.active_connections c = some hnd ∧
  alLookup st.connection_info c = some ci ∧
  alLookup st.client_activity c = some now ∧
  ci.last_activity = now

theorem ConnInfo_set_last_activity_self (ci : ConnInfo) (now : ℚ)
    (h : ci.last_activity = now) : { ci with last_activity := now } = ci := by
  cases ci
  simp_all

theorem updateClientActivity_intact (now : ℚ) (c c' : String) (hnd : ℕ)
    (ci : ConnInfo) (st : ManagerState) (h : clientIntact c hnd ci now st) :
    clientIntact c hnd ci now (updateClientActivity now c' st) := by
  obtain ⟨h1, h2, h3, h4⟩ := h
  by_cases hc : c = c'
  · subst hc
    refine ⟨h1, ?_, ?_, h4⟩
    · show alLookup (match alLookup st.connection_info c with
        | some ci => alInsert st.connection_info c { ci with last_activity := now }
        | none => st.connection_info) c = some ci
      rw [h2]
      show alLookup (alInsert st.connection_info c { ci with last_activity := now }) c =
        some ci
      rw [ConnInfo_set_last_activity_self ci now h4, alInsert_eq_of_lookup _ _ _ h2]
      exact h2
    · show alLookup (alInsert st.client_activity c now) c = some now
      simp
  · refine ⟨h1, ?_, ?_, h4⟩
    · show alLookup (match alLookup st.connection_info c' with
        | some ci => alInsert st.connection_info c' { ci with last_activity := now }
        | none => st.connection_info) c = some ci
      rcases hi : alLookup st.connection_info c' with _ | ci'
      · exact h2
      · rw [alLookup_alInsert_ne _ c' c _ hc]
        exact h2
    · show alLookup (alInsert st.client_activity c' now) c = some now
      rw [alLookup_alInsert_ne _ c' c _ hc]
      exact h3

theorem sendLoop_intact (ok : String → Bool) (now : ℚ) (msg : WSMessage)
    (exclude : Option String) :
    ∀ (conns : List (String × ℕ)) (st : ManagerState) (c : String) (hnd : ℕ)
      (ci : ConnInfo), clientIntact c hnd ci now st →
      clientIntact c hnd ci now (sendLoop ok now msg exclude conns st).2.2.1 := by
  intro conns
  induction conns with
  | nil => intro st c hnd ci h; exact h
  | cons p rest ih =>
    intro st c hnd ci h
    obtain ⟨pk, ph⟩ := p
    by_cases he : excludeMatches exclude pk = true
    · rw [show sendLoop ok now msg exclude ((pk, ph) :: rest) st =
        sendLoop ok now msg exclude rest st from by simp [sendLoop, he]]
      exact ih _ c hnd ci h
    · have he' : excludeMatches exclude pk = false := by simpa using he
      by_cases hk : ok pk = true
      · rw [show (sendLoop ok now msg exclude ((pk, ph) :: rest) st).2.2.1 =
          (sendLoop ok now msg exclude rest (updateClientActivity now pk st)).2.2.1
          from by simp [sendLoop, he', hk]]
        exact ih _ c hnd ci (updateClientActivity_intact now c pk hnd ci st h)
      · have hk' : ok pk = false := by simpa using hk
        rw [show (sendLoop ok now msg exclude ((pk, ph) :: rest) st).2.2.1 =
          (sendLoop ok now msg exclude rest st).2.2.1
          from by simp [sendLoop, he', hk']]
        exact ih _ c hnd ci h

theorem removeClient_intact (cid c : String) (hnd : ℕ) (ci : ConnInfo) (now : ℚ)
    (st : ManagerState) (hne : c ≠ cid) (h : clientIntact c hnd ci now st) :
    clientIntact c hnd ci now (removeClient cid st) := by
  obtain ⟨h1, h2, h3, h4⟩ := h
  exact ⟨by rw [show (removeClient cid st).active_connections =
      alErase st.active_connections cid from rfl, alLookup_alErase_ne _ cid c hne]; exact h1,
    by rw [show (removeClient cid st).connection_info =
      alErase st.connection_info cid from rfl, alLookup_alErase_ne _ cid c hne]; exact h2,
    by rw [show (removeClient cid st).client_activity =
      alErase st.client_activity cid from rfl, alLookup_alErase_ne _ cid c hne]; exact h3,
    h4⟩

theorem sendLoop_failed_ok_false (ok : String → Bool) (now : ℚ) (msg : WSMessage)
    (exclude : Option String) (conns : List (String × ℕ)) (st : ManagerState)
    (cid : String) (hm : cid ∈ (sendLoop ok now msg exclude conns st).2.1) :
    ok cid = false := by
  rw [sendLoop_failed] at hm
  rcases List.mem_map.mp hm with ⟨p, hp, rfl⟩
  have hpred := (List.mem_filter.mp hp).2
  simp only [Bool.and_eq_true, Bool.not_eq_true'] at hpred
  exact hpred.2

theorem disconnectFuel_intact (ok : String → Bool) (now : ℚ) :
    ∀ (fuel : ℕ) (cid : String) (st : ManagerState) (c : String) (hnd : ℕ)
      (ci : ConnInfo), ok c = true → c ≠ cid → clientIntact c hnd ci now st →
      clientIntact c hnd ci now (disconnectFuel ok now fuel cid st).1 := by
  intro fuel
  induction fuel with
  | zero => intro cid st c hnd ci _ _ h; exact h
  | succ fuel ih =>
    intro cid st c hnd ci hok hne h
    have h1 := removeClient_intact cid c hnd ci now st hne h
    show clientIntact c hnd ci now
      (broadcastWith (disconnectFuel ok now fuel) ok now
        (mkUserCountMsg (removeClient cid st).active_connections.length) none
        (removeClient cid st)).2.1
    by_cases hE : (removeClient cid st).active_connections.isEmpty = true
    · simpa [broadcastWith, hE] using h1
    · have hE' : (removeClient cid st).active_connections.isEmpty = false := by
        simpa using hE
      simp only [broadcastWith, hE', Bool.false_eq_true, if_false]
      refine runCleanup_inv (clientIntact c hnd ci now) _
        (fun cid' st' hm hp => ?_) _
        (sendLoop_intact ok now _ none _ _ c hnd ci h1)
      have hf : ok cid' = false := sendLoop_failed_ok_false ok now _ none _ _ cid' hm
      have hne' : c ≠ cid' := by
        intro hcc
        rw [← hcc, hok] at hf
        exact Bool.noConfusion hf
      exact ih cid' st' c hnd ci hok hne' hp

theorem broadcastWith_intact (ok : String → Bool) (now : ℚ) (fuel : ℕ)
    (msg : WSMessage) (exclude : Option String) (st : ManagerState) (c : String)
    (hnd : ℕ) (ci : ConnInfo) (hok : ok c = true)
    (h : clientIntact c hnd ci now st) :
    clientIntact c hnd ci now
      (broadcastWith (disconnectFuel ok now fuel) ok now msg exclude st).2.1 := by
  by_cases hE : st.active_connections.isEmpty = true
  · simpa [broadcastWith, hE] using h
  · have hE' : st.active_connections.isEmpty = false := by simpa using hE
    simp only [broadcastWith, hE', Bool.false_eq_true, if_false]
    refine runCleanup_inv (clientIntact c hnd ci now) _
      (fun cid' st' hm hp => ?_) _
      (sendLoop_intact ok now msg exclude _ _ c hnd ci h)
    have hf : ok cid' = false := sendLoop_failed_ok_false ok now msg exclude _ _ cid' hm
    have hne' : c ≠ cid' := by
      intro hcc
      rw [← hcc, hok] at hf
      exact Bool.noConfusion hf
    exact disconnectFuel_intact ok now fuel cid' st' c hnd ci hok hne' hp

/-! ## C2: registering an already-live id -/

/-- C2 counterexample: the id `a` is already live with handle 1; a second
registration of `a` does not fail — the call succeeds and the registry
afterwards maps `a` to the new handle 2 with fresh metadata.  Last-writer
wins; no duplicate-session check exists in `connect`. -/
theorem connect_duplicate_cex :
    (connectFuel 3 (fun _ => true) 5 "a" 2 none stOne).2.2 = true ∧
    alLookup ((connectFuel 3 (fun _ => true) 5 "a" 2 none
      stOne).1).active_connections "a" = some 2 ∧
    alLookup stOne.active_connections "a" = some 1 ∧
    alLookup ((connectFuel 3 (fun _ => true) 5 "a" 2 none
      stOne).1).connection_info "a" = some ⟨"a", 5, 5, none⟩ :=
  ⟨rfl, rfl, rfl, rfl⟩

/-- C2 amended: registering an id that is already live raises no error and
replaces the prior session: the registration succeeds, and — whenever the
new client's socket works — the registry afterwards maps the id to the new
handle and to metadata freshly stamped at the instant of the call
(last-writer-wins). -/
theorem connect_replaces_existing (fuel : ℕ) (ok : String → Bool) (now : ℚ)
    (cid : String) (hnd : ℕ) (ip : Option String) (st : ManagerState)
    (hok : ok cid = true) :
    (connectFuel fuel ok now cid hnd ip st).2.2 = true ∧
    alLookup ((connectFuel fuel ok now cid hnd ip st).1).active_connections cid =
      some hnd ∧
    alLookup ((connectFuel fuel ok now cid hnd ip st).1).connection_info cid =
      some ⟨cid, now, now, ip⟩ := by
  have hintact : clientIntact cid hnd ⟨cid, now, now, ip⟩ now
      { st with
        active_connections := alInsert st.active_connections cid hnd
        connection_info := alInsert st.connection_info cid ⟨cid, now, now, ip⟩
        client_activity := alInsert st.client_activity cid now } :=
    ⟨alLookup_alInsert_self _ _ _, alLookup_alInsert_self _ _ _,
     alLookup_alInsert_self _ _ _, rfl⟩
  have hres := broadcastWith_intact ok now fuel
    (mkUserCountMsg (alInsert st.active_connections cid hnd).length) none
    { st with
      active_connections := alInsert st.active_connections cid hnd
      connection_info := alInsert st.connection_info cid ⟨cid, now, now, ip⟩
      client_activity := alInsert st.client_activity cid now }
    cid hnd ⟨cid, now, now, ip⟩ hok hintact
  unfold connectFuel
  by_cases hB : st.board_state.isEmpty = true
  · simp only [hB, if_true]
    exact ⟨trivial, hres.1, hres.2.1⟩
  · have hB' : st.board_state.isEmpty = false := by simpa using hB
    simp only [hB', Bool.false_eq_true, if_false, hok, if_true]
    exact ⟨trivial, hres.1, hres.2.1⟩

/-- Witness for C2 amended: re-registering the live id `a` with handle 2 at
instant 5 yields handle 2 and metadata stamped at 5. -/
theorem connect_replaces_existing_witness :
    (connectFuel 1 (fun _ => true) 5 "a" 2 none stOne).2.2 = true ∧
    alLookup ((connectFuel 1 (fun _ => true) 5 "a" 2 none
      stOne).1).active_connections "a" = some 2 ∧
    alLookup ((connectFuel 1 (fun _ => true) 5 "a" 2 none
      stOne).1).connection_info "a" = some ⟨"a", 5, 5, none⟩ :=
  connect_replaces_existing 1 (fun _ => true) 5 "a" 2 none stOne rfl

/-! ## C4: snapshot delivery to a newly connected client -/

/-- C4 counterexample: `connect` sends the snapshot only under
`if self._board_state:`, so a client connecting while the board log is
empty receives no `board_state` message at all — its first (and only)
received message in this scenario is the `user_count` broadcast. -/
theorem connect_empty_board_cex :
    (connectFuel 3 (fun _ => true) 5 "d" 4 none stOne).2.1 =
      [Event.sent "a" (mkUserCountMsg 2), Event.sent "d" (mkUserCountMsg 2)] ∧
    (mkUserCountMsg 2).type = MessageType.user_count ∧
    MessageType.user_count ≠ MessageType.board_state :=
  ⟨rfl, rfl, by decide⟩

/-- C4 amended: when the board log is nonempty at connect time and the new
client's socket accepts the send, the newly connected session's first
received message is a `board_state` snapshot whose payload holds exactly
the actions of the log at registration — delivered before any other
traffic, in particular before the `user_count` broadcast triggered by the
same connect; when the log is empty no snapshot is sent at all. -/
theorem connect_first_message_board_state (fuel : ℕ) (ok : String → Bool)
    (now : ℚ) (cid : String) (hnd : ℕ) (ip : Option String) (st : ManagerState)
    (hB : st.board_state ≠ []) (hok : ok cid = true)
    (hobj : st.board_state.all Json.isObj = true) :
    (connectFuel fuel ok now cid hnd ip st).2.1.head? =
      some (Event.sent cid (mkBoardStateMsg st.board_state)) ∧
    (mkBoardStateMsg st.board_state).type = MessageType.board_state ∧
    (mkBoardStateMsg st.board_state).payload =
      some (.boardState ⟨st.board_state⟩) := by
  refine ⟨?_, rfl, ?_⟩
  · have hB' : st.board_state.isEmpty = false := by
      rcases hempty : st.board_state with _ | ⟨a, rest⟩
      · exact absurd hempty hB
      · rfl
    unfold connectFuel
    simp only [hB', Bool.false_eq_true, if_false, hok, if_true]
    rfl
  · show parsePayload (.obj [("actions", .arr st.board_state)]) =
      some (.boardState ⟨st.board_state⟩)
    simp [parsePayload, tryDrawPayload, tryTextPayload, tryCursorPayload,
      tryUserCountPayload, tryBoardStatePayload, alLookup, hobj]

/-- A board log holding three persisted actions. -/
def boardThree : List Json :=
  [Json.obj [("type", Json.str "draw")], Json.obj [("type", Json.str "text")],
   Json.obj [("type", Json.str "draw")]]

/-- A registry with one client `a` and a three-action board log. -/
def stBoard3 : ManagerState :=
  ⟨[("a", 1)], [("a", ⟨"a", 0, 0, none⟩)], boardThree, [("a", 0)]⟩

/-- Witness for C4 amended: client `d` connects while the log holds three
actions — its first received message is the `board_state` snapshot carrying
exactly those three actions. -/
theorem connect_first_message_board_state_witness :
    (connectFuel 2 (fun _ => true) 5 "d" 4 none stBoard3).2.1.head? =
      some (Event.sent "d" (mkBoardStateMsg boardThree)) ∧
    (mkBoardStateMsg boardThree).payload = some (.boardState ⟨boardThree⟩) :=
  have h := connect_first_message_board_state 2 (fun _ => true) 5 "d" 4 none stBoard3
    (by intro hcon; exact List.noConfusion hcon) rfl rfl
  ⟨h.1, h.2.2⟩

/-! ## C9: deregistration of an unknown id -/

theorem alLookup_none_iff_keys {α : Type} (l : List (String × α)) (k : String) :
    alLookup l k = none ↔ k ∉ l.map Prod.fst := by
  induction l with
  | nil => simp [alLookup]
  | cons p rest ih =>
    obtain ⟨pk, pv⟩ := p
    by_cases hp : pk = k
    · subst hp
      simp [alLookup]
    · simp [alLookup, hp, ih, Ne.symm hp]

theorem removeClient_unknown (uid : String) (st : ManagerState)
    (hA : alLookup st.active_connections uid = none)
    (hI : alLookup st.connection_info uid = none)
    (hAc : alLookup st.client_activity uid = none) :
    removeClient uid st = st := by
  obtain ⟨a, i, b, act⟩ := st
  unfold removeClient
  simp only at hA hI hAc ⊢
  rw [alErase_eq_of_lookup_none _ _ hA, alErase_eq_of_lookup_none _ _ hI,
    alErase_eq_of_lookup_none _ _ hAc]

theorem broadcastWith_state_allok
    {disc : String → ManagerState → ManagerState × List Event}
    (ok : String → Bool) (now : ℚ) (msg : WSMessage) (exclude : Option String)
    (st : ManagerState) (hok : ∀ c, ok c = true) :
    (broadcastWith disc ok now msg exclude st).2.1 =
      (sendLoop ok now msg exclude st.active_connections st).2.2.1 := by
  by_cases hE : st.active_connections.isEmpty = true
  · have hnil := List.isEmpty_iff.mp hE
    rw [show (broadcastWith disc ok now msg exclude st).2.1 = st from by
      simp [broadcastWith, hE]]
    rw [hnil]
    rfl
  · have hE' : st.active_connections.isEmpty = false := by simpa using hE
    simp only [broadcastWith, hE', Bool.false_eq_true, if_false]
    have hfailed : (sendLoop ok now msg exclude st.active_connections st).2.1 = [] := by
      rw [sendLoop_failed]
      rw [show st.active_connections.filter
          (fun p => !excludeMatches exclude p.1 && !ok p.1) = [] from
        List.filter_eq_nil_iff.mpr (fun p _ => by simp [hok p.1])]
      rfl
    rw [hfailed]
    rfl

theorem updateClientActivity_info_keys (now : ℚ) (cid : String) (st : ManagerState) :
    (updateClientActivity now cid st).connection_info.map Prod.fst =
      st.connection_info.map Prod.fst := by
  show (match alLookup st.connection_info cid with
    | some ci => alInsert st.connection_info cid { ci with last_activity := now }
    | none => st.connection_info).map Prod.fst = st.connection_info.map Prod.fst
  rcases hi : alLookup st.connection_info cid with _ | ci
  · rfl
  · exact alInsert_keys_of_lookup _ cid _ ci hi

theorem sendLoop_info_keys (ok : String → Bool) (now : ℚ) (msg : WSMessage)
    (exclude : Option String) :
    ∀ (conns : List (String × ℕ)) (st : ManagerState),
      (sendLoop ok now msg exclude conns st).2.2.1.connection_info.map Prod.fst =
        st.connection_info.map Prod.fst := by
  intro conns
  induction conns with
  | nil => intro st; rfl
  | cons p rest ih =>
    intro st
    obtain ⟨pk, ph⟩ := p
    by_cases he : excludeMatches exclude pk = true
    · simp only [sendLoop, he, if_true]
      exact ih st
    · have he' : excludeMatches exclude pk = false := by simpa using he
      by_cases hk : ok pk = true
      · simp only [sendLoop, he', hk, Bool.false_eq_true, if_false, if_true]
        rw [ih (updateClientActivity now pk st)]
        exact updateClientActivity_info_keys now pk st
      · have hk' : ok pk = false := by simpa using hk
        simp only [sendLoop, he', hk', Bool.false_eq_true, if_false]
        exact ih st

theorem sendLoop_activity_lookup_none (ok : String → Bool) (now : ℚ)
    (msg : WSMessage) (exclude : Option String) :
    ∀ (conns : List (String × ℕ)) (st : ManagerState) (uid : String),
      uid ∉ conns.map Prod.fst →
      alLookup st.client_activity uid = none →
      alLookup (sendLoop ok now msg exclude conns st).2.2.1.client_activity uid =
        none := by
  intro conns
  induction conns with
  | nil => intro st uid _ h; exact h
  | cons p rest ih =>
    intro st uid hmem h
    obtain ⟨pk, ph⟩ := p
    have hpk : pk ≠ uid := by
      intro hcon
      exact hmem (by simp [hcon])
    have hrest : uid ∉ rest.map Prod.fst := by
      intro hcon
      exact hmem (by simp [hcon])
    by_cases he : excludeMatches exclude pk = true
    · simp only [sendLoop, he, if_true]
      exact ih st uid hrest h
    · have he' : excludeMatches exclude pk = false := by simpa using he
      by_cases hk : ok pk = true
      · simp only [sendLoop, he', hk, Bool.false_eq_true, if_false, if_true]
        refine ih _ uid hrest ?_
        show alLookup (alInsert st.client_activity pk now) uid = none
        rw [alLookup_alInsert_ne _ pk uid _ (Ne.symm hpk)]
        exact h
      · have hk' : ok pk = false := by simpa using hk
        simp only [sendLoop, he', hk', Bool.false_eq_true, if_false]
        exact ih st uid hrest h

/-- Client `c`'s activity records already carry the instant `now`, so
touching it again at `now` is a no-op. -/
def TouchedAt (now : ℚ) (c : String) (st : ManagerState) : Prop :=
  alLookup st.client_activity c = some now ∧
  ∀ ci, alLookup st.connection_info c = some ci → ci.last_activity = now

theorem updateClientActivity_touchedAt (now : ℚ) (c c' : String) (st : ManagerState)
    (h : TouchedAt now c st) : TouchedAt now c (updateClientActivity now c' st) := by
  obtain ⟨h1, h2⟩ := h
  by_cases hc : c = c'
  · subst hc
    refine ⟨?_, ?_⟩
    · show alLookup (alInsert st.client_activity c now) c = some now
      simp
    · intro ci hci
      revert hci
      show alLookup (match alLookup st.connection_info c with
        | some ci0 => alInsert st.connection_info c { ci0 with last_activity := now }
        | none => st.connection_info) c = some ci → ci.last_activity = now
      rcases hi : alLookup st.connection_info c with _ | ci0
      · show alLookup st.connection_info c = some ci → ci.last_activity = now
        exact h2 ci
      · show alLookup (alInsert st.connection_info c
          { ci0 with last_activity := now }) c = some ci → ci.last_activity = now
        rw [alLookup_alInsert_self]
        intro hci
        cases hci
        rfl
  · refine ⟨?_, ?_⟩
    · show alLookup (alInsert st.client_activity c' now) c = some now
      rw [alLookup_alInsert_ne _ c' c _ hc]
      exact h1
    · intro ci hci
      revert hci
      show alLookup (match alLookup st.connection_info c' with
        | some ci0 => alInsert st.connection_info c' { ci0 with last_activity := now }
        | none => st.connection_info) c = some ci → ci.last_activity = now
      rcases hi : alLookup st.connection_info c' with _ | ci0
      · show alLookup st.connection_info c = some ci → ci.last_activity = now
        exact h2 ci
      · show alLookup (alInsert st.connection_info c'
          { ci0 with last_activity := now }) c = some ci → ci.last_activity = now
        rw [alLookup_alInsert_ne _ c' c _ hc]
        exact h2 ci

theorem sendLoop_touchedAt (ok : String → Bool) (now : ℚ) (msg : WSMessage)
    (exclude : Option String) :
    ∀ (conns : List (String × ℕ)) (st : ManagerState) (c : String),
      TouchedAt now c st →
      TouchedAt now c (sendLoop ok now msg exclude conns st).2.2.1 := by
  intro conns
  induction conns with
  | nil => intro st c h; exact h
  | cons p rest ih =>
    intro st c h
    obtain ⟨pk, ph⟩ := p
    by_cases he : excludeMatches exclude pk = true
    · simp only [sendLoop, he, if_true]
      exact ih st c h
    · have he' : excludeMatches exclude pk = false := by simpa using he
      by_cases hk : ok pk = true
      · simp only [sendLoop, he', hk, Bool.false_eq_true, if_false, if_true]
        exact ih _ c (updateClientActivity_touchedAt now c pk st h)
      · have hk' : ok pk = false := by simpa using hk
        simp only [sendLoop, he', hk', Bool.false_eq_true, if_false]
        exact ih st c h

theorem updateClientActivity_touchedAt_self (now : ℚ) (c : String)
    (st : ManagerState) : TouchedAt now c (updateClientActivity now c st) := by
  refine ⟨?_, ?_⟩
  · show alLookup (alInsert st.client_activity c now) c = some now
    simp
  · intro ci hci
    revert hci
    show alLookup (match alLookup st.connection_info c with
      | some ci0 => alInsert st.connection_info c { ci0 with last_activity := now }
      | none => st.connection_info) c = some ci → ci.last_activity = now
    rcases hi : alLookup st.connection_info c with _ | ci0
    · show alLookup st.connection_info c = some ci → ci.last_activity = now
      exact fun hci => Option.noConfusion (hi.symm.trans hci)
    · show alLookup (alInsert st.connection_info c
        { ci0 with last_activity := now }) c = some ci → ci.last_activity = now
      rw [alLookup_alInsert_self]
      intro hci
      cases hci
      rfl

theorem sendLoop_touch_post (ok : String → Bool) (now : ℚ) (msg : WSMessage)
    (exclude : Option String) :
    ∀ (conns : List (String × ℕ)) (st : ManagerState) (c : String) (hnd : ℕ),
      (c, hnd) ∈ conns → excludeMatches exclude c = false → ok c = true →
      TouchedAt now c (sendLoop ok now msg exclude conns st).2.2.1 := by
  intro conns
  induction conns with
  | nil => intro st c hnd hm; simp at hm
  | cons p rest ih =>
    intro st c hnd hm hex hok
    obtain ⟨pk, ph⟩ := p
    rcases List.mem_cons.mp hm with heq | hm2
    · cases heq
      simp only [sendLoop, hex, hok, Bool.false_eq_true, if_false, if_true]
      exact sendLoop_touchedAt ok now msg exclude rest _ c
        (updateClientActivity_touchedAt_self now c st)
    · by_cases he : excludeMatches exclude pk = true
      · simp only [sendLoop, he, if_true]
        exact ih st c hnd hm2 hex hok
      · have he' : excludeMatches exclude pk = false := by simpa using he
        by_cases hk : ok pk = true
        · simp only [sendLoop, he', hk, Bool.false_eq_true, if_false, if_true]
          exact ih _ c hnd hm2 hex hok
        · have hk' : ok pk = false := by simpa using hk
          simp only [sendLoop, he', hk', Bool.false_eq_true, if_false]
          exact ih st c hnd hm2 hex hok

theorem updateClientActivity_id_of_touchedAt (now : ℚ) (c : String)
    (st : ManagerState) (h : TouchedAt now c st) :
    updateClientActivity now c st = st := by
  obtain ⟨h1, h2⟩ := h
  obtain ⟨a, i, b, act⟩ := st
  unfold updateClientActivity
  simp only at h1 h2 ⊢
  rw [alInsert_eq_of_lookup _ _ _ h1]
  rcases hi : alLookup i c with _ | ci0
  · rfl
  · show ManagerState.mk a (alInsert i c { ci0 with last_activity := now }) b act =
      ManagerState.mk a i b act
    rw [ConnInfo_set_last_activity_self ci0 now (h2 ci0 hi),
      alInsert_eq_of_lookup _ _ _ hi]

theorem sendLoop_id_of_touched (ok : String → Bool) (now : ℚ) (msg : WSMessage)
    (exclude : Option String) :
    ∀ (conns : List (String × ℕ)) (st : ManagerState),
      (∀ c hnd, (c, hnd) ∈ conns → excludeMatches exclude c = false →
        ok c = true → TouchedAt now c st) →
      (sendLoop ok now msg exclude conns st).2.2.1 = st := by
  intro conns
  induction conns with
  | nil => intro st _; rfl
  | cons p rest ih =>
    intro st htouch
    obtain ⟨pk, ph⟩ := p
    by_cases he : excludeMatches exclude pk = true
    · simp only [sendLoop, he, if_true]
      exact ih st (fun c hnd hm hex hok =>
        htouch c hnd (List.mem_cons_of_mem _ hm) hex hok)
    · have he' : excludeMatches exclude pk = false := by simpa using he
      by_cases hk : ok pk = true
      · simp only [sendLoop, he', hk, Bool.false_eq_true, if_false, if_true]
        rw [updateClientActivity_id_of_touchedAt now pk st
          (htouch pk ph (List.mem_cons_self _ _) he' hk)]
        exact ih st (fun c hnd hm hex hok =>
          htouch c hnd (List.mem_cons_of_mem _ hm) hex hok)
      · have hk' : ok pk = false := by simpa using hk
        simp only [sendLoop, he', hk', Bool.false_eq_true, if_false]
        exact ih st (fun c hnd hm hex hok =>
          htouch c hnd (List.mem_cons_of_mem _ hm) hex hok)

/-- C9 counterexample: deregistering the unknown id `b` is not a no-op on
the registry state: the trailing user-count broadcast touches the
last-activity records of every client it reaches, so client `a`'s activity
stamp changes from 0 to the instant of the call. -/
theorem disconnect_unknown_id_cex :
    alLookup ((disconnectFuel (fun _ => true) 5 3 "b"
      stOne).1).client_activity "a" = some 5 ∧
    alLookup stOne.client_activity "a" = some 0 ∧ (5 : ℚ) ≠ 0 :=
  ⟨rfl, rfl, by norm_num⟩

/-- C9 amended: for an id that is not registered, `disconnect` removes
nothing — active connections are exactly unchanged and the set of metadata
keys is preserved, as is the board log — but the trailing user-count
broadcast still refreshes the last-activity records of the clients it
reaches; with a fixed instant and per-client send outcomes (all sends
succeeding), deregistering the same unknown id twice leaves the registry in
the same state as deregistering it once. -/
theorem disconnect_unknown_idempotent (fuel : ℕ) (ok : String → Bool) (now : ℚ)
    (uid : String) (st : ManagerState)
    (hA : alLookup st.active_connections uid = none)
    (hI : alLookup st.connection_info uid = none)
    (hAc : alLookup st.client_activity uid = none)
    (hok : ∀ c, ok c = true) :
    ((disconnectFuel ok now (fuel + 1) uid st).1).active_connections =
      st.active_connections ∧
    ((disconnectFuel ok now (fuel + 1) uid st).1).connection_info.map Prod.fst =
      st.connection_info.map Prod.fst ∧
    ((disconnectFuel ok now (fuel + 1) uid st).1).board_state = st.board_state ∧
    (disconnectFuel ok now (fuel + 1) uid
        (disconnectFuel ok now (fuel + 1) uid st).1).1 =
      (disconnectFuel ok now (fuel + 1) uid st).1 := by
  have hrm : removeClient uid st = st := removeClient_unknown uid st hA hI hAc
  have hstate : (disconnectFuel ok now (fuel + 1) uid st).1 =
      (sendLoop ok now (mkUserCountMsg st.active_connections.length) none
        st.active_connections st).2.2.1 := by
    show (broadcastWith (disconnectFuel ok now fuel) ok now
      (mkUserCountMsg (removeClient uid st).active_connections.length) none
      (removeClient uid st)).2.1 = _
    rw [hrm]
    exact broadcastWith_state_allok ok now _ none st hok
  set T := (sendLoop ok now (mkUserCountMsg st.active_connections.length) none
    st.active_connections st).2.2.1 with hTdef
  have hTactive : T.active_connections = st.active_connections := by
    rw [hTdef]
    exact sendLoop_active ok now _ none _ st
  have hTA : alLookup T.active_connections uid = none := by
    rw [hTactive]; exact hA
  have hTI : alLookup T.connection_info uid = none := by
    rw [alLookup_none_iff_keys] at hI ⊢
    rw [hTdef, sendLoop_info_keys]
    exact hI
  have hTAc : alLookup T.client_activity uid = none := by
    rw [hTdef]
    refine sendLoop_activity_lookup_none ok now _ none st.active_connections st uid
      ?_ hAc
    rw [← alLookup_none_iff_keys]
    exact hA
  refine ⟨by rw [hstate]; exact hTactive, ?_, ?_, ?_⟩
  · rw [hstate, hTdef, sendLoop_info_keys]
  · rw [hstate, hTdef]
    exact sendLoop_board ok now _ none _ st
  · rw [hstate]
    have hrmT : removeClient uid T = T := removeClient_unknown uid T hTA hTI hTAc
    have hstate2 : (disconnectFuel ok now (fuel + 1) uid T).1 =
        (sendLoop ok now (mkUserCountMsg T.active_connections.length) none
          T.active_connections T).2.2.1 := by
      show (broadcastWith (disconnectFuel ok now fuel) ok now
        (mkUserCountMsg (removeClient uid T).active_connections.length) none
        (removeClient uid T)).2.1 = _
      rw [hrmT]
      exact broadcastWith_state_allok ok now _ none T hok
    rw [hstate2, hTactive]
    refine sendLoop_id_of_touched ok now _ none st.active_connections T ?_
    intro c hnd hm hex hok'
    rw [hTdef]
    exact sendLoop_touch_post ok now _ none st.active_connections st c hnd hm hex hok'

/-- Witness for C9 amended: disconnecting the unknown id `b` from a
registry holding `a` leaves the connection set unchanged, and doing it
twice equals doing it once. -/
theorem disconnect_unknown_idempotent_witness :
    ((disconnectFuel (fun _ => true) 5 1 "b" stOne).1).active_connections =
      stOne.active_connections ∧
    (disconnectFuel (fun _ => true) 5 1 "b"
        (disconnectFuel (fun _ => true) 5 1 "b" stOne).1).1 =
      (disconnectFuel (fun _ => true) 5 1 "b" stOne).1 :=
  have h := disconnect_unknown_idempotent 0 (fun _ => true) 5 "b" stOne rfl rfl rfl
    (fun _ => rfl)
  ⟨h.1, h.2.2.2⟩

/-! ## C1: the stroke-point limit is bypassed by the payload union -/

/-- A raw point object well inside the coordinate range. -/
def samplePoint : Json := Json.obj [("x", Json.num 1), ("y", Json.num 2)]

/-- A point-count one above the configured `max_stroke_points`. -/
def tooManyPoints : List Json := List.replicate (max_stroke_points + 1) samplePoint

/-- The payload of a draw that is valid in every respect except that its
points list is longer than `settings.max_stroke_points`. -/
def oversizedPayloadFields : List (String × Json) :=
  [("tool", Json.str "pen"), ("color", Json.str "#112233"),
   ("size", Json.num 4), ("points", Json.arr tooManyPoints)]

/-- The fields of the oversized draw message. -/
def oversizedTopFields : List (String × Json) :=
  [("type", Json.str "draw"), ("clientId", Json.str "alice"),
   ("payload", Json.obj oversizedPayloadFields)]

/-- The oversized draw message itself. -/
def oversizedDraw : Json := Json.obj oversizedTopFields

theorem parsePoint_samplePoint : parsePoint samplePoint = some ⟨1, 2⟩ := by
  decide

theorem parsePoints_replicate :
    ∀ n, parsePoints (List.replicate n samplePoint) =
      some (List.replicate n (⟨1, 2⟩ : Point)) := by
  intro n
  induction n with
  | zero => rfl
  | succ n ih =>
    rw [List.replicate_succ, List.replicate_succ]
    simp only [parsePoints, parsePoint_samplePoint, ih]

theorem tryDrawPayload_oversized : tryDrawPayload oversizedPayloadFields = none := by
  have hpts : parsePoints tooManyPoints =
      some (List.replicate (max_stroke_points + 1) (⟨1, 2⟩ : Point)) := by
    rw [show tooManyPoints = List.replicate (max_stroke_points + 1) samplePoint
      from rfl]
    exact parsePoints_replicate _
  simp only [tryDrawPayload,
    show alLookup oversizedPayloadFields "tool" = some (Json.str "pen") from rfl,
    show alLookup oversizedPayloadFields "color" = some (Json.str "#112233") from rfl,
    show alLookup oversizedPayloadFields "size" = some (Json.num 4) from rfl,
    show alLookup oversizedPayloadFields "points" = some (Json.arr tooManyPoints)
      from rfl,
    hpts, List.length_replicate]
  rw [if_pos (show isToolType "pen" = true from rfl)]
  rw [if_pos (show isHexColor "#112233" = true from rfl)]
  rw [if_pos (show isIntRat 4 ∧ 1 ≤ (4 : ℚ).num ∧ (4 : ℚ).num ≤ 100 from
    ⟨by decide, by decide, by decide⟩)]
  rw [if_pos (show 1 ≤ max_stroke_points + 1 from by omega)]
  rw [if_neg (show ¬(max_stroke_points + 1 ≤ max_stroke_points) from by omega)]

theorem parsePayload_oversized :
    parsePayload (Json.obj oversizedPayloadFields) =
      some (.boardState ⟨[]⟩) := by
  have htext : tryTextPayload oversizedPayloadFields = none := rfl
  have hcursor : tryCursorPayload oversizedPayloadFields = none := rfl
  have huc : tryUserCountPayload oversizedPayloadFields = none := rfl
  have hbs : tryBoardStatePayload oversizedPayloadFields = some ⟨[]⟩ := rfl
  simp only [parsePayload, tryDrawPayload_oversized, htext, hcursor, huc, hbs]

theorem mkWebSocketMessage_oversized :
    mkWebSocketMessage oversizedTopFields =
      some ⟨.draw, "alice", some (.boardState ⟨[]⟩)⟩ := by
  simp only [mkWebSocketMessage,
    show alLookup oversizedTopFields "type" = some (Json.str "draw") from rfl,
    show MessageType.ofString "draw" = some .draw from rfl,
    show alLookup oversizedTopFields "clientId" = some (Json.str "alice") from rfl,
    show alLookup oversizedTopFields "payload" =
      some (Json.obj oversizedPayloadFields) from rfl,
    Option.orElse, parsePayload_oversized]

/-- C1 (code bug): processing a draw whose point list exceeds
`max_stroke_points` does not fail and does mutate the board log.
`DrawPayload.validate_points_limit` rejects the payload, but the
`WebSocketMessage.payload` union ends in `Dict[str, Any]`
(`BoardStatePayload`, all of whose fields have defaults, already accepts
any object before that), so pydantic accepts the message anyway; the
handler then appends the raw action to the board log. -/
theorem oversized_draw_accepted :
    tooManyPoints.length = max_stroke_points + 1 ∧
    tryDrawPayload oversizedPayloadFields = none ∧
    (processIncomingMessage (some oversizedDraw) "alice" []).1.isOk = true ∧
    (processIncomingMessage (some oversizedDraw) "alice" []).2 = [oversizedDraw] := by
  have hfinal : processIncomingMessage (some oversizedDraw) "alice" [] =
      (.ok ⟨.draw, "alice", some (.boardState ⟨[]⟩)⟩, [oversizedDraw]) := by
    simp only [processIncomingMessage, oversizedDraw,
      show alLookup oversizedTopFields "type" = some (Json.str "draw") from rfl,
      show alLookup oversizedTopFields "clientId" = some (Json.str "alice") from rfl,
      mkWebSocketMessage_oversized, Option.isNone_some, Bool.false_eq_true,
      if_false]
    rw [if_neg (by simp), if_pos (Or.inl trivial)]
    rfl
  refine ⟨by simp [tooManyPoints], tryDrawPayload_oversized, ?_, ?_⟩
  · rw [hfinal]
    rfl
  · rw [hfinal]

/-! ## C3: validation is not free of board-log side effects -/

/-- A fully valid one-point draw message from `alice`. -/
def validDraw : Json :=
  Json.obj [("type", Json.str "draw"), ("clientId", Json.str "alice"),
    ("payload", Json.obj [("tool", Json.str "pen"), ("color", Json.str "#112233"),
      ("size", Json.num 4),
      ("points", Json.arr [Json.obj [("x", Json.num 1), ("y", Json.num 2)]])])]

/-- C3 counterexample: running `_process_incoming_message` on a valid draw
message returns a typed message AND appends to the board log — validation
in this code path is not side-effect-free: the log grows from 0 to 1
entries during the call. -/
theorem process_mutates_board_cex :
    (processIncomingMessage (some validDraw) "alice" []).1.isOk = true ∧
    (processIncomingMessage (some validDraw) "alice" []).2.length = 1 ∧
    ([] : List Json).length = 0 := by
  refine ⟨?_, ?_, rfl⟩ <;> rfl

theorem process_cases (raw : Option Json) (cid : String) (board : List Json) :
    (∃ err, processIncomingMessage raw cid board = (.error err, board)) ∨
    (∃ m j, raw = some j ∧ (m.type = .draw ∨ m.type = .text ∨ m.type = .clear) ∧
      processIncomingMessage raw cid board = (.ok m, add_to_board_state board j)) ∨
    (∃ m, processIncomingMessage raw cid board = (.ok m, board) ∧
      ¬(m.type = .draw ∨ m.type = .text ∨ m.type = .clear)) := by
  rcases raw with _ | j
  · exact Or.inl ⟨.invalidJson, rfl⟩
  · rcases j with _ | b | q | s | elems | fields
    · exact Or.inl ⟨.invalidJson, rfl⟩
    · exact Or.inl ⟨.notObject, rfl⟩
    · exact Or.inl ⟨.notObject, rfl⟩
    · exact Or.inl ⟨.notObject, rfl⟩
    · exact Or.inl ⟨.notObject, rfl⟩
    · simp only [processIncomingMessage]
      split
      · exact Or.inl ⟨.missingType, rfl⟩
      · split
        · exact Or.inl ⟨.missingClientId, rfl⟩
        · split
          · exact Or.inl ⟨.clientIdMismatch, rfl⟩
          · split
            · exact Or.inl ⟨.validationFailed, rfl⟩
            · next m hm =>
              split
              · next hdt =>
                exact Or.inr (Or.inl ⟨m, Json.obj fields, rfl,
                  (by rcases hdt with h | h
                      · exact Or.inl h
                      · exact Or.inr (Or.inl h)), rfl⟩)
              · next hdt =>
                split
                · next hc =>
                  exact Or.inr (Or.inl ⟨m, Json.obj fields, rfl,
                    Or.inr (Or.inr hc), rfl⟩)
                · next hc =>
                  refine Or.inr (Or.inr ⟨m, rfl, ?_⟩)
                  rintro (h | h | h)
                  · exact hdt (Or.inl h)
                  · exact hdt (Or.inr h)
                  · exact hc h

/-- C3 amended: `_process_incoming_message` returns a typed message or
fails, and never dispatches (it reads and writes no connection state); on
failure the board log is unchanged; but validation-and-apply are fused: on
success with a `draw`, `text` or `clear` message the raw action is applied
to the board log (append or clear), so only non-persistent kinds leave the
log unchanged. -/
theorem process_board_effect (raw : Option Json) (cid : String)
    (board : List Json) :
    (∀ err, (processIncomingMessage raw cid board).1 = .error err →
      (processIncomingMessage raw cid board).2 = board) ∧
    (∀ m, (processIncomingMessage raw cid board).1 = .ok m →
      ((m.type = .draw ∨ m.type = .text ∨ m.type = .clear) →
        ∃ j, raw = some j ∧
          (processIncomingMessage raw cid board).2 = add_to_board_state board j) ∧
      (¬(m.type = .draw ∨ m.type = .text ∨ m.type = .clear) →
        (processIncomingMessage raw cid board).2 = board)) := by
  rcases process_cases raw cid board with ⟨err, heq⟩ | ⟨m, j, hj, hper, heq⟩ |
    ⟨m, heq, hper⟩
  · constructor
    · intro _ _
      rw [heq]
    · intro m hm
      rw [heq] at hm
      exact Except.noConfusion hm
  · constructor
    · intro err herr
      rw [heq] at herr
      exact Except.noConfusion herr
    · intro m' hm'
      rw [heq] at hm'
      cases hm'
      exact ⟨fun _ => ⟨j, hj, by rw [heq]⟩, fun hcon => absurd hper hcon⟩
  · constructor
    · intro err herr
      rw [heq] at herr
      exact Except.noConfusion herr
    · intro m' hm'
      rw [heq] at hm'
      cases hm'
      exact ⟨fun hcon => absurd hcon hper, fun _ => by rw [heq]⟩

/-- Witness for C3 amended: the valid draw appends its raw action to the
empty log, and a malformed frame leaves a three-action log unchanged. -/
theorem process_board_effect_witness :
    (processIncomingMessage (some validDraw) "alice" []).2 =
      add_to_board_state [] validDraw ∧
    (processIncomingMessage none "alice" boardThree).2 = boardThree :=
  have h1 := process_board_effect (some validDraw) "alice" []
  have h2 := process_board_effect none "alice" boardThree
  ⟨by
    obtain ⟨j, hj, hb⟩ :=
      (h1.2 ⟨.draw, "alice", some (.draw ⟨"pen", "#112233", 4, [⟨1, 2⟩]⟩)⟩ rfl).1
        (Or.inl rfl)
    cases hj
    exact hb,
   h2.1 .invalidJson rfl⟩

end FastBoard
